import Mathlib

/-!
Verification development for the ser-bot conversation orchestration engine.

The definitions below are a shallow embedding of the repository's core:
the data model of src/prisma/schema.prisma, the conversation/contact/booking
operations and the dialogue orchestrator of src/services/whatsappai.service.js,
and the webhook text-message handler (MainController.handleTextMessageAsync).

External collaborators (the WAHA chat gateway, the OpenAI chat-completions
endpoint, the MySQL store behind Prisma) are modelled as explicit data:
the store is a record of entity lists threaded through every operation, and
the gateway and LLM round trips are supplied by an environment record whose
fields say what each external call would return (with an Option/Bool encoding
call failure).  JavaScript exceptions are modelled with Except; JavaScript
object spreads over the Json blobs (customFields, context) are modelled with
records carrying a rest field for the keys the service never writes.
-/

namespace SerBot

/-! ## Data model (src/prisma/schema.prisma) -/

inductive ContactStatus
  | PROSPECT | LEAD | OPPORTUNITY | CUSTOMER | INACTIVE | DISQUALIFIED
deriving DecidableEq, Repr

inductive BookingStatus
  | PENDING | CONFIRMED | CANCELLED | COMPLETED | NO_SHOW
deriving DecidableEq, Repr

inductive MessageDirection
  | INBOUND | OUTBOUND
deriving DecidableEq, Repr

inductive MessageStatus
  | SENT | DELIVERED | READ | FAILED | RECEIVED
deriving DecidableEq, Repr

/-- The customFields Json blob on Contact.  The service only ever writes the
interestedIn key; rest models every other key of the blob, which a spread
preserves. -/
structure CustomFields where
  interestedIn : Option (List String) := none
  rest : List (String × String) := []
deriving DecidableEq, Repr

/-- The extractedInfo object of the analyzeCustomerIntent tool schema. -/
structure ExtractedInfo where
  name : Option String := none
  email : Option String := none
  desiredDate : Option String := none
  serviceName : Option String := none
  notes : Option String := none
deriving DecidableEq, Repr

/-- The context Json blob on Conversation.  The service writes
lastAnalyzedIntent, needsHumanAgent and extractedInfo; rest models the other
keys, which the spread in analyzeCustomerIntent preserves. -/
structure ConvContext where
  lastAnalyzedIntent : Option String := none
  needsHumanAgent : Option Bool := none
  extractedInfo : Option ExtractedInfo := none
  rest : List (String × String) := []
deriving DecidableEq, Repr

structure Contact where
  id : String
  phoneNumber : String
  name : Option String := none
  email : Option String := none
  firstContactAt : Nat := 0
  lastContactAt : Nat := 0
  status : ContactStatus := .PROSPECT
  leadScore : Option Int := some 0
  source : Option String := none
  notes : Option String := none
  customFields : Option CustomFields := none
  isOptedIn : Bool := false
  isActive : Bool := true
deriving DecidableEq, Repr

structure Conversation where
  id : String
  contactId : String
  startedAt : Nat := 0
  endedAt : Option Nat := none
  context : Option ConvContext := none
  intent : Option String := none
  isActive : Bool := true
deriving DecidableEq, Repr

structure Message where
  id : String
  conversationId : String
  messageId : Option String := none
  direction : MessageDirection
  content : String
  timestamp : Nat := 0
  status : MessageStatus := .SENT
deriving DecidableEq, Repr

structure Booking where
  id : String
  contactId : String
  serviceName : String
  dateTime : Nat
  status : BookingStatus := .PENDING
  notes : Option String := none
deriving DecidableEq, Repr

/-- The relational store, the single source of truth.  nextId models the
cuid generator for primary keys. -/
structure Store where
  contacts : List Contact := []
  conversations : List Conversation := []
  messages : List Message := []
  bookings : List Booking := []
  nextId : Nat := 0
deriving DecidableEq, Repr

/-! ## Store helpers -/

def genId (s : Store) : String × Store :=
  ("rec" ++ toString s.nextId, { s with nextId := s.nextId + 1 })

/-- prisma.contact.findUnique by id. -/
def findContact (s : Store) (cid : String) : Option Contact :=
  s.contacts.find? (fun c => c.id == cid)

/-- prisma.contact.findUnique by the unique phoneNumber key. -/
def findContactByPhone (s : Store) (phone : String) : Option Contact :=
  s.contacts.find? (fun c => c.phoneNumber == phone)

/-- prisma.booking.findUnique by id. -/
def findBooking (s : Store) (bid : String) : Option Booking :=
  s.bookings.find? (fun b => b.id == bid)

/-- prisma.conversation.findUnique by id. -/
def findConversationById (s : Store) (vid : String) : Option Conversation :=
  s.conversations.find? (fun v => v.id == vid)

/-- Stable insertion step for an ascending sort by a Nat key. -/
def insertAscBy {α : Type} (key : α → Nat) (x : α) : List α → List α
  | [] => [x]
  | y :: ys => if key x ≤ key y then x :: y :: ys else y :: insertAscBy key x ys

/-- Stable ascending sort by a Nat key (models an SQL ORDER BY ... asc). -/
def sortAscBy {α : Type} (key : α → Nat) : List α → List α
  | [] => []
  | x :: xs => insertAscBy key x (sortAscBy key xs)

/-- Stable insertion step for a descending sort by a Nat key. -/
def insertDescBy {α : Type} (key : α → Nat) (x : α) : List α → List α
  | [] => [x]
  | y :: ys => if key y ≤ key x then x :: y :: ys else y :: insertDescBy key x ys

/-- Stable descending sort by a Nat key (models an SQL ORDER BY ... desc). -/
def sortDescBy {α : Type} (key : α → Nat) : List α → List α
  | [] => []
  | x :: xs => insertDescBy key x (sortDescBy key xs)

/-- prisma.conversation.findFirst with where contactId+isActive and
orderBy startedAt desc. -/
def findActiveConversation (s : Store) (cid : String) : Option Conversation :=
  (sortDescBy (fun v => v.startedAt)
    (s.conversations.filter (fun v => v.contactId == cid && v.isActive))).head?

/-- Errors that surface as JavaScript exceptions in the pipeline.  dupKey is
the P2002 unique-constraint failure, invalidDate the Prisma client rejection
of an Invalid Date object, notFound the P2025 update-target-missing failure,
typeError a dynamic-dispatch type failure, the others are failed external
calls. -/
inductive Err
  | dupKey | invalidDate | notFound | typeError | unknownAction
  | llmFail | gatewayFail | unknown
deriving DecidableEq, Repr

/-- The structured result object every action returns on its success and
recovered-failure paths. -/
structure ActionResult where
  success : Bool
  error : Option String := none
  message : Option String := none
deriving DecidableEq, Repr

/-! ## Date parsing

createBooking feeds its dateTime string to the JavaScript Date constructor.
parseDate models that constructor on the formats the service is specified to
accept, a full ISO timestamp or a bare YYYY-MM-DD date; a string it cannot
parse yields none, which models the Invalid Date object. -/

/-- Split a character list at every occurrence of a separator. -/
def splitCharAux (sep : Char) : List Char → List Char → List (List Char)
  | [], acc => [acc.reverse]
  | ch :: cs, acc =>
    if ch == sep then acc.reverse :: splitCharAux sep cs []
    else splitCharAux sep cs (ch :: acc)

def splitOnChar (sep : Char) (cs : List Char) : List (List Char) :=
  splitCharAux sep cs []

def isDigitSeg (cs : List Char) : Bool :=
  !cs.isEmpty && cs.all Char.isDigit

def isTimeSeg (cs : List Char) : Bool :=
  cs.all (fun ch => ch.isDigit || ch == ':' || ch == '.' || ch == 'Z' || ch == '+')

def digitsToNat (cs : List Char) : Nat :=
  cs.foldl (fun n ch => n * 10 + (ch.toNat - 48)) 0

def parseDate (str : String) : Option Nat :=
  match splitOnChar '-' str.data with
  | [y, m, rest] =>
    let dayAndTime : List Char × List Char :=
      match splitOnChar 'T' rest with
      | [d] => (d, [])
      | [d, t] => (d, t)
      | _ => ([], ['x'])
    let d := dayAndTime.1
    let t := dayAndTime.2
    if isDigitSeg y && y.length == 4 && isDigitSeg m && isDigitSeg d
        && (t.isEmpty || isTimeSeg t) then
      let mn := digitsToNat m
      let dn := digitsToNat d
      if 1 ≤ mn && mn ≤ 12 && 1 ≤ dn && dn ≤ 31 then
        some (digitsToNat y * 10000 + mn * 100 + dn)
      else none
    else none
  | _ => none

/-! ## Action Registry (src/services/whatsappai.service.js)

Each action is the deterministic server-side implementation the LLM may
invoke.  JavaScript truthiness on strings (the empty string is falsy) is
spelled out wherever the source branches on it. -/

/-- JavaScript truthiness for an optional string field: present and
non-empty. -/
def strTruthy : Option String → Bool
  | some str => !str.isEmpty
  | none => false

/-- The customFields blob analyzeCustomerIntent writes: the spread keeps the
other keys of the existing blob but assigns interestedIn wholesale; an empty
or absent list leaves the blob untouched. -/
def newCF (interestedIn : Option (List String)) (cf : Option CustomFields) :
    Option CustomFields :=
  match interestedIn with
  | some l =>
    if l.isEmpty then cf
    else some { interestedIn := some l, rest := (cf.getD {}).rest }
  | none => cf

/-- analyzeCustomerIntent: updates the contact from the analysis and the
active conversation's context.  A missing contact or active conversation is
a recovered failure result, not an exception. -/
def analyzeCustomerIntent (s : Store) (contactId intent : String)
    (contactStatus : ContactStatus) (leadScore : Int)
    (interestedIn : Option (List String)) (needsHumanAgent : Bool)
    (extractedInfo : ExtractedInfo) : Except Err ActionResult × Store :=
  match findContact s contactId with
  | none =>
    (.ok { success := false, error := some ("Contacto " ++ contactId ++ " no encontrado") }, s)
  | some contact =>
    match findActiveConversation s contactId with
    | none =>
      (.ok { success := false,
             error := some ("No hay conversación activa para el contacto " ++ contactId) }, s)
    | some conversation =>
      let newName : Option String :=
        if strTruthy extractedInfo.name then extractedInfo.name else contact.name
      let newEmail : Option String :=
        if strTruthy extractedInfo.email then extractedInfo.email else contact.email
      let newCustomFields : Option CustomFields :=
        newCF interestedIn contact.customFields
      let s1 : Store :=
        { s with contacts := s.contacts.map (fun c =>
            if c.id == contactId then
              { c with status := contactStatus, leadScore := some leadScore,
                       name := newName, email := newEmail,
                       customFields := newCustomFields }
            else c) }
      let oldCtx : ConvContext := conversation.context.getD {}
      let s2 : Store :=
        { s1 with conversations := s1.conversations.map (fun v =>
            if v.id == conversation.id then
              { v with intent := some intent,
                       context := some { lastAnalyzedIntent := some intent,
                                         needsHumanAgent := some needsHumanAgent,
                                         extractedInfo := some extractedInfo,
                                         rest := oldCtx.rest } }
            else v) }
      (.ok { success := true,
             message := some "Contacto actualizado" }, s2)

/-- createBooking: verifies the contact, parses the date with the Date
constructor, inserts a PENDING booking, then sets the contact to OPPORTUNITY.
An unparsable date is rejected by the Prisma client when the Invalid Date is
written, before any row is inserted, and that exception propagates. -/
def createBooking (s : Store) (contactId serviceName dateTime : String)
    (notes : Option String) : Except Err ActionResult × Store :=
  match findContact s contactId with
  | none =>
    (.ok { success := false, error := some ("Contacto " ++ contactId ++ " no encontrado") }, s)
  | some _ =>
    match parseDate dateTime with
    | none => (.error .invalidDate, s)
    | some d =>
      let idAndStore := genId s
      let bid := idAndStore.1
      let s1 := idAndStore.2
      let s2 : Store :=
        { s1 with bookings := s1.bookings ++
            [{ id := bid, contactId := contactId, serviceName := serviceName,
               dateTime := d, status := .PENDING, notes := some (notes.getD "") }] }
      let s3 : Store :=
        { s2 with contacts := s2.contacts.map (fun c =>
            if c.id == contactId then { c with status := .OPPORTUNITY } else c) }
      (.ok { success := true, message := some ("Reserva creada: " ++ serviceName) }, s3)

/-- prisma.contact.update of the status field: throws P2025 when the target
row is missing. -/
def contactUpdateStatus (s : Store) (cid : String) (st : ContactStatus) :
    Except Err Store :=
  if s.contacts.any (fun c => c.id == cid) then
    .ok { s with contacts := s.contacts.map (fun c =>
            if c.id == cid then { c with status := st } else c) }
  else .error .notFound

/-- Count of the contact's PENDING or CONFIRMED bookings
(prisma.booking.count in updateBookingStatus). -/
def activeBookingCount (s : Store) (cid : String) : Nat :=
  (s.bookings.filter (fun b =>
    b.contactId == cid && (b.status == .PENDING || b.status == .CONFIRMED))).length

/-- The new notes value updateBookingStatus writes:
notes present and truthy appends to truthy existing notes, otherwise
replaces falsy existing notes; absent notes keep the existing value. -/
def appendBookingNotes (existing : Option String) (notes : Option String) :
    Option String :=
  match notes with
  | some n =>
    if n.isEmpty then existing
    else
      match existing with
      | some en => if en.isEmpty then some n else some (en ++ "\n" ++ n)
      | none => some n
  | none => existing

/-- The contact-status cascade at the tail of updateBookingStatus: COMPLETED
always sets CUSTOMER; CANCELLED or NO_SHOW sets LEAD exactly when no
PENDING/CONFIRMED booking remains after the update; other statuses leave the
contact untouched. -/
def cascadeContact (s1 : Store) (contactId : String) (status : BookingStatus) :
    Except Err ActionResult × Store :=
  let okRes : ActionResult := { success := true, message := some "Reserva actualizada" }
  if status == .COMPLETED then
    match contactUpdateStatus s1 contactId .CUSTOMER with
    | .ok s2 => (.ok okRes, s2)
    | .error e => (.error e, s1)
  else if status == .CANCELLED || status == .NO_SHOW then
    if activeBookingCount s1 contactId == 0 then
      match contactUpdateStatus s1 contactId .LEAD with
      | .ok s2 => (.ok okRes, s2)
      | .error e => (.error e, s1)
    else (.ok okRes, s1)
  else (.ok okRes, s1)

/-- updateBookingStatus: transitions the booking, appends notes, and runs the
contact-status cascade. -/
def updateBookingStatus (s : Store) (contactId bookingId : String)
    (status : BookingStatus) (notes : Option String) : Except Err ActionResult × Store :=
  match findBooking s bookingId with
  | none =>
    (.ok { success := false, error := some ("Reserva " ++ bookingId ++ " no encontrada") }, s)
  | some existingBooking =>
    if existingBooking.contactId != contactId then
      (.ok { success := false,
             error := some "Esta reserva no pertenece al contacto indicado" }, s)
    else
      let newNotes := appendBookingNotes existingBooking.notes notes
      let s1 : Store :=
        { s with bookings := s.bookings.map (fun b =>
            if b.id == bookingId then { b with status := status, notes := newNotes } else b) }
      cascadeContact s1 contactId status

/-- The partial field set accepted by updateContactInfo; a none field was not
supplied and is left untouched by the update. -/
structure UpdateData where
  name : Option String := none
  email : Option String := none
  status : Option ContactStatus := none
  leadScore : Option Int := none
  source : Option String := none
  notes : Option String := none
  isOptedIn : Option Bool := none
  isActive : Option Bool := none
deriving DecidableEq, Repr

def applyUpdateData (u : UpdateData) (c : Contact) : Contact :=
  { c with
    name := match u.name with | some n => some n | none => c.name
    email := match u.email with | some e => some e | none => c.email
    status := u.status.getD c.status
    leadScore := match u.leadScore with | some l => some l | none => c.leadScore
    source := match u.source with | some so => some so | none => c.source
    notes := match u.notes with | some n => some n | none => c.notes
    isOptedIn := u.isOptedIn.getD c.isOptedIn
    isActive := u.isActive.getD c.isActive }

/-- updateContactInfo: prisma.contact.update with the supplied partial data;
throws P2025 when the contact is missing. -/
def updateContactInfo (s : Store) (contactId : String) (u : UpdateData) :
    Except Err ActionResult × Store :=
  if s.contacts.any (fun c => c.id == contactId) then
    (.ok { success := true, message := some "Información de contacto actualizada" },
     { s with contacts := s.contacts.map (fun c =>
         if c.id == contactId then applyUpdateData u c else c) })
  else (.error .notFound, s)

/-- getContactBookings: read-only list of the contact's bookings, optionally
filtered by status, ascending by date. -/
def getContactBookings (s : Store) (contactId : String)
    (status : Option BookingStatus) : Except Err ActionResult × Store :=
  match findContact s contactId with
  | none =>
    (.ok { success := false, error := some ("Contacto " ++ contactId ++ " no encontrado") }, s)
  | some _ =>
    let bookings := sortAscBy (fun b => b.dateTime)
      (s.bookings.filter (fun b =>
        b.contactId == contactId &&
        (match status with | some st => b.status == st | none => true)))
    (.ok { success := true,
           message := some (toString bookings.length ++ " reservas encontradas") }, s)

/-- addContactNotes: appends a timestamped line to the contact's notes.  The
toLocaleString timestamp prefix is rendered from the model clock. -/
def addContactNotes (s : Store) (now : Nat) (contactId notes : String) :
    Except Err ActionResult × Store :=
  match findContact s contactId with
  | none =>
    (.ok { success := false, error := some ("Contacto " ++ contactId ++ " no encontrado") }, s)
  | some contact =>
    let line := toString now ++ ": " ++ notes
    let updatedNotes : String :=
      match contact.notes with
      | some old => if old.isEmpty then line else old ++ "\n\n" ++ line
      | none => line
    (.ok { success := true, message := some "Notas agregadas correctamente" },
     { s with contacts := s.contacts.map (fun c =>
         if c.id == contactId then { c with notes := some updatedNotes } else c) })

/-! ## Model-supplied JSON arguments and dynamic dispatch

callAI executes a tool call with this[functionName](...Object.values(args)):
the parsed JSON arguments object is flattened to its values in key-insertion
order and the values are bound to the handler's parameters positionally.
JVal is the JSON value universe; an arguments object is an ordered list of
key-value pairs, as JSON.parse preserves the textual key order for the
non-integer keys these schemas use. -/

inductive JVal
  | jstr (s : String)
  | jint (n : Int)
  | jbool (b : Bool)
  | jarr (xs : List String)
  | jobj (fields : List (String × JVal))
  | jundefined

/-- Object.values on a parsed arguments object: the values in key order. -/
def argVals (args : List (String × JVal)) : List JVal :=
  args.map (fun kv => kv.2)

/-- Positional parameter lookup: a position past the supplied arguments is
the JavaScript undefined. -/
def getArg (vals : List JVal) (i : Nat) : JVal :=
  (vals.get? i).getD .jundefined

/-! Decoders from the dynamic values to the typed parameters.  A value whose
shape does not fit the parameter decodes to none, modelling the runtime type
failure the untyped JavaScript call would hit downstream (Prisma validation
or a property access on the wrong shape). -/

def asStr : JVal → Option String
  | .jstr s => some s
  | _ => none

def asOptStr : JVal → Option (Option String)
  | .jstr s => some (some s)
  | .jundefined => some none
  | _ => none

def asInt : JVal → Option Int
  | .jint n => some n
  | _ => none

def asBool : JVal → Option Bool
  | .jbool b => some b
  | _ => none

def asOptStrList : JVal → Option (Option (List String))
  | .jarr xs => some (some xs)
  | .jundefined => some none
  | _ => none

def ContactStatus.ofString : String → Option ContactStatus
  | "PROSPECT" => some .PROSPECT
  | "LEAD" => some .LEAD
  | "OPPORTUNITY" => some .OPPORTUNITY
  | "CUSTOMER" => some .CUSTOMER
  | "INACTIVE" => some .INACTIVE
  | "DISQUALIFIED" => some .DISQUALIFIED
  | _ => none

def BookingStatus.ofString : String → Option BookingStatus
  | "PENDING" => some .PENDING
  | "CONFIRMED" => some .CONFIRMED
  | "CANCELLED" => some .CANCELLED
  | "COMPLETED" => some .COMPLETED
  | "NO_SHOW" => some .NO_SHOW
  | _ => none

def asContactStatus (v : JVal) : Option ContactStatus :=
  (asStr v).bind ContactStatus.ofString

def asBookingStatus (v : JVal) : Option BookingStatus :=
  (asStr v).bind BookingStatus.ofString

def asOptBookingStatus : JVal → Option (Option BookingStatus)
  | .jstr s => (BookingStatus.ofString s).map some
  | .jundefined => some none
  | _ => none

/-- Field lookup in a decoded JSON object; an absent key is an absent
optional field, a non-string value under these schemas is a shape failure. -/
def objOptStr (fields : List (String × JVal)) (key : String) :
    Option (Option String) :=
  match fields.lookup key with
  | none => some none
  | some v => asOptStr v

def objOptBool (fields : List (String × JVal)) (key : String) :
    Option (Option Bool) :=
  match fields.lookup key with
  | none => some none
  | some (.jbool b) => some (some b)
  | some _ => none

def objOptInt (fields : List (String × JVal)) (key : String) :
    Option (Option Int) :=
  match fields.lookup key with
  | none => some none
  | some (.jint n) => some (some n)
  | some _ => none

def objOptContactStatus (fields : List (String × JVal)) (key : String) :
    Option (Option ContactStatus) :=
  match fields.lookup key with
  | none => some none
  | some (.jstr s) => (ContactStatus.ofString s).map some
  | some _ => none

/-- Decode the extractedInfo argument; the JavaScript default parameter
value {} applies when the position holds undefined. -/
def asExtractedInfo : JVal → Option ExtractedInfo
  | .jundefined => some {}
  | .jobj fields =>
    match objOptStr fields "name", objOptStr fields "email",
          objOptStr fields "desiredDate", objOptStr fields "serviceName",
          objOptStr fields "notes" with
    | some n, some e, some d, some sv, some nt =>
      some { name := n, email := e, desiredDate := d, serviceName := sv, notes := nt }
    | _, _, _, _, _ => none
  | _ => none

/-- Decode the updateData argument of updateContactInfo. -/
def asUpdateData : JVal → Option UpdateData
  | .jobj fields =>
    match objOptStr fields "name", objOptStr fields "email",
          objOptContactStatus fields "status", objOptInt fields "leadScore",
          objOptStr fields "source", objOptStr fields "notes",
          objOptBool fields "isOptedIn", objOptBool fields "isActive" with
    | some n, some e, some st, some ls, some so, some nt, some oi, some ia =>
      some { name := n, email := e, status := st, leadScore := ls,
             source := so, notes := nt, isOptedIn := oi, isActive := ia }
    | _, _, _, _, _, _, _, _ => none
  | _ => none

/-- Dynamic dispatch of a tool call: this[functionName] applied to the
argument values positionally.  An unknown function name is the undefined-is-
not-a-function TypeError; a value that does not fit its positional parameter
is the downstream type failure. -/
def dispatch (now : Nat) (s : Store) (name : String) (vals : List JVal) :
    Except Err ActionResult × Store :=
  if name == "analyzeCustomerIntent" then
    match asStr (getArg vals 0), asStr (getArg vals 1), asContactStatus (getArg vals 2),
          asInt (getArg vals 3), asOptStrList (getArg vals 4), asBool (getArg vals 5),
          asExtractedInfo (getArg vals 6) with
    | some cid, some intent, some cs, some ls, some ii, some nha, some ei =>
      analyzeCustomerIntent s cid intent cs ls ii nha ei
    | _, _, _, _, _, _, _ => (.error .typeError, s)
  else if name == "createBooking" then
    match asStr (getArg vals 0), asStr (getArg vals 1), asStr (getArg vals 2),
          asOptStr (getArg vals 3) with
    | some cid, some svc, some dt, some n => createBooking s cid svc dt n
    | _, _, _, _ => (.error .typeError, s)
  else if name == "updateBookingStatus" then
    match asStr (getArg vals 0), asStr (getArg vals 1), asBookingStatus (getArg vals 2),
          asOptStr (getArg vals 3) with
    | some cid, some bid, some st, some n => updateBookingStatus s cid bid st n
    | _, _, _, _ => (.error .typeError, s)
  else if name == "updateContactInfo" then
    match asStr (getArg vals 0), asUpdateData (getArg vals 1) with
    | some cid, some u => updateContactInfo s cid u
    | _, _ => (.error .typeError, s)
  else if name == "getContactBookings" then
    match asStr (getArg vals 0), asOptBookingStatus (getArg vals 1) with
    | some cid, some st => getContactBookings s cid st
    | _, _ => (.error .typeError, s)
  else if name == "addContactNotes" then
    match asStr (getArg vals 0), asStr (getArg vals 1) with
    | some cid, some n => addContactNotes s now cid n
    | _, _ => (.error .typeError, s)
  else (.error .unknownAction, s)

/-! ## External environment -/

/-- A tool call returned by the model, with its parsed JSON arguments. -/
structure ToolCall where
  name : String
  args : List (String × JVal)

/-- The message of a chat-completion choice: assistant text and tool calls. -/
structure LLMMsg where
  content : String
  toolCalls : List ToolCall

/-- What WahaService.getContact would return for a chat id: none models a
thrown transport error, the fields are the profile name candidates. -/
structure GwContactInfo where
  pushname : Option String := none
  name : Option String := none

/-- The interface environment of one pipeline run: the clock, what each
external call would return, and whether each gateway call succeeds. -/
structure Env where
  now : Nat := 0
  gwContact : Option GwContactInfo := none
  llmFirst : Option LLMMsg := none
  llmFollow : Option String := none
  gwStartOk : Bool := true
  gwStopOk : Bool := true
  gwSendOk : Bool := true

/-- Observable events of one run, tagged by call site: LLM round trips,
action invocations, the reply sent by processMessage, the apology sent by
the controller's fallback, and outbound message persistence. -/
inductive Event
  | llmCall
  | actionExec (name : String)
  | sentReply (text : String)
  | sentApology (text : String)
  | savedOutbound (content : String)
deriving DecidableEq, Repr

/-! ## Contact Directory and Conversation Store -/

/-- JavaScript a || b on a string candidate: the fallback applies when the
candidate is absent or empty. -/
def jsStrOr (a : Option String) (b : String) : String :=
  match a with
  | some s => if s.isEmpty then b else s
  | none => b

/-- The bare phone number derived from a chat identity: the part of the
chatId before the first at sign. -/
def phoneOf (chatId : String) : String :=
  match splitOnChar '@' chatId.data with
  | p :: _ => String.mk p
  | [] => chatId

/-- The display name for a new contact: the profile pushname, else the
profile name, else a placeholder; a failed gateway call is caught and falls
back to the bare placeholder. -/
def contactDisplayName (env : Env) (chatId : String) : String :=
  match env.gwContact with
  | none => "Desconocido"
  | some ci => jsStrOr ci.pushname (jsStrOr ci.name ("Desconocido (" ++ chatId ++ ")"))

/-- prisma.contact.create: the store enforces the phoneNumber uniqueness
key, and a duplicate insert throws P2002. -/
def createContactRow (s : Store) (phone nm : String) (now : Nat) :
    Except Err (Contact × Store) :=
  if s.contacts.any (fun c => c.phoneNumber == phone) then .error .dupKey
  else
    let idAndStore := genId s
    let c : Contact :=
      { id := idAndStore.1, phoneNumber := phone, name := some nm,
        status := .PROSPECT, firstContactAt := now, lastContactAt := now }
    .ok (c, { idAndStore.2 with contacts := idAndStore.2.contacts ++ [c] })

/-- findOrCreateContact with an explicit environment step at the await
suspension point between the lookup and the create: mid is what concurrent
tasks commit to the store while this task is suspended (id for a run with no
interleaving). -/
def findOrCreateContactRaced (mid : Store → Store) (env : Env) (chatId : String)
    (s : Store) : Except Err Contact × Store :=
  let phoneNumber := phoneOf chatId
  match findContactByPhone s phoneNumber with
  | none =>
    let contactName := contactDisplayName env chatId
    let s1 := mid s
    match createContactRow s1 phoneNumber contactName env.now with
    | .error e => (.error e, s1)
    | .ok cs => (.ok cs.1, cs.2)
  | some contact =>
    (.ok contact,
     { s with contacts := s.contacts.map (fun c =>
         if c.id == contact.id then { c with lastContactAt := env.now } else c) })

/-- findOrCreateContact as the pipeline runs it, with no interleaving. -/
def findOrCreateContact (env : Env) (chatId : String) (s : Store) :
    Except Err Contact × Store :=
  findOrCreateContactRaced id env chatId s

/-- getOrCreateConversation: reuse the active conversation if present,
otherwise create one with empty context. -/
def getOrCreateConversation (cid : String) (now : Nat) (s : Store) :
    Conversation × Store :=
  match findActiveConversation s cid with
  | some conversation => (conversation, s)
  | none =>
    let idAndStore := genId s
    let conversation : Conversation :=
      { id := idAndStore.1, contactId := cid, startedAt := now,
        isActive := true, context := some {} }
    (conversation,
     { idAndStore.2 with conversations := idAndStore.2.conversations ++ [conversation] })

/-- saveMessage: insert an immutable message row, status SENT for OUTBOUND
and RECEIVED for INBOUND. -/
def saveMessage (conversationId : String) (messageId : Option String)
    (content : String) (direction : MessageDirection) (now : Nat) (s : Store) :
    Message × Store :=
  let status : MessageStatus := if direction == .OUTBOUND then .SENT else .RECEIVED
  let idAndStore := genId s
  let m : Message :=
    { id := idAndStore.1, conversationId := conversationId, messageId := messageId,
      direction := direction, content := content, timestamp := now, status := status }
  (m, { idAndStore.2 with messages := idAndStore.2.messages ++ [m] })

/-- A role-tagged history entry fed to the LLM. -/
structure ChatTurn where
  role : String
  content : String
deriving DecidableEq, Repr

/-- getMessageHistory: prisma.message.findMany for the conversation with
orderBy timestamp asc and take 10, mapped to role-tagged turns. -/
def getMessageHistory (conversationId : String) (s : Store) : List ChatTurn :=
  let msgs := (sortAscBy (fun m => m.timestamp)
    (s.messages.filter (fun m => m.conversationId == conversationId))).take 10
  msgs.map (fun m =>
    { role := if m.direction == .INBOUND then "user" else "assistant",
      content := m.content })

/-! ## Dialogue Orchestrator -/

/-- The tool-call execution loop of callAI: each call is dispatched in the
order the model returned it; a thrown action error aborts the loop and
propagates.  The returned event list records one actionExec per started
invocation. -/
def execToolCalls (env : Env) : List ToolCall → Store →
    Except Err Unit × Store × List Event
  | [], s => (.ok (), s, [])
  | call :: rest, s =>
    match dispatch env.now s call.name (argVals call.args) with
    | (.error e, s1) => (.error e, s1, [Event.actionExec call.name])
    | (.ok _, s1) =>
      match execToolCalls env rest s1 with
      | (r, s2, evs) => (r, s2, Event.actionExec call.name :: evs)

/-- The result callAI hands back to processMessage. -/
structure AIResp where
  message : String
  actions : List ToolCall

/-- callAI: one chat-completion round trip; when the response carries tool
calls, execute them all sequentially and issue one follow-up round trip
whose text is the final user-facing reply, otherwise the first response's
text is the reply directly.  A failed round trip throws. -/
def callAI (env : Env) (s : Store) : Except Err AIResp × Store × List Event :=
  match env.llmFirst with
  | none => (.error .llmFail, s, [Event.llmCall])
  | some aiMsg =>
    if aiMsg.toolCalls.isEmpty then
      (.ok { message := aiMsg.content, actions := [] }, s, [Event.llmCall])
    else
      match execToolCalls env aiMsg.toolCalls s with
      | (.error e, s1, evs) => (.error e, s1, Event.llmCall :: evs)
      | (.ok _, s1, evs) =>
        match env.llmFollow with
        | none => (.error .llmFail, s1, Event.llmCall :: (evs ++ [Event.llmCall]))
        | some t =>
          (.ok { message := t, actions := aiMsg.toolCalls }, s1,
           Event.llmCall :: (evs ++ [Event.llmCall]))

/-- The inbound message data handed to processMessage. -/
structure MessageData where
  chatId : String
  sender : String := ""
  content : String
  messageId : String
deriving DecidableEq, Repr

/-- What processMessage returns after its internal catch. -/
structure ProcResult where
  success : Bool
  error : Option Err := none
deriving DecidableEq, Repr

/-- The body of processMessage before its catch: resolve the contact, ensure
the active conversation, persist the inbound message, load history, run the
LLM round trips and tool calls, stop typing, send the reply, persist the
outbound message. -/
def processBody (env : Env) (md : MessageData) (s : Store) :
    Except Err Unit × Store × List Event :=
  match findOrCreateContact env md.chatId s with
  | (.error e, s1) => (.error e, s1, [])
  | (.ok contact, s1) =>
    match getOrCreateConversation contact.id env.now s1 with
    | (conversation, s2) =>
      match saveMessage conversation.id (some md.messageId) md.content .INBOUND env.now s2 with
      | (_, s3) =>
        match callAI env s3 with
        | (.error e, s4, evs) => (.error e, s4, evs)
        | (.ok aiResponse, s4, evs) =>
          if env.gwStopOk then
            if env.gwSendOk then
              match saveMessage conversation.id none aiResponse.message .OUTBOUND env.now s4 with
              | (_, s5) =>
                (.ok (), s5,
                 evs ++ [Event.sentReply aiResponse.message,
                         Event.savedOutbound aiResponse.message])
            else (.error .gatewayFail, s4, evs)
          else (.error .gatewayFail, s4, evs)

/-- processMessage: the body wrapped in its catch; any thrown error becomes
a failure result and never escapes. -/
def processMessage (env : Env) (md : MessageData) (s : Store) :
    ProcResult × Store × List Event :=
  match processBody env md s with
  | (.ok _, s1, evs) => ({ success := true }, s1, evs)
  | (.error e, s1, evs) => ({ success := false, error := some e }, s1, evs)

/-- The fixed apology text of the controller's fallback. -/
def apologyText : String :=
  "Lo siento, tuve un problema al procesar tu mensaje. Por favor, inténtalo de nuevo en unos momentos."

/-- handleTextMessageAsync (MainController): start typing, run
processMessage, and on any failure fall back to stopping typing and sending
one generic apology; a failure of the fallback send itself is caught and
only logged.  The outer Except is what the async task would propagate to
the host process. -/
def handleTextMessageAsync (env : Env) (md : MessageData) (s : Store) :
    Except Err Unit × Store × List Event :=
  let attempt : Except Err Unit × Store × List Event :=
    if env.gwStartOk then
      match processMessage env md s with
      | (res, s1, evs) =>
        if res.success then (.ok (), s1, evs)
        else (.error (res.error.getD .unknown), s1, evs)
    else (.error .gatewayFail, s, [])
  match attempt with
  | (.ok _, s1, evs) => (.ok (), s1, evs)
  | (.error _, s1, evs) =>
    if env.gwStopOk && env.gwSendOk then
      (.ok (), s1, evs ++ [Event.sentApology apologyText])
    else (.ok (), s1, evs)

/-! ## Event observations -/

/-- The action names recorded in a trace, in execution order. -/
def actionNames (tr : List Event) : List String :=
  tr.filterMap (fun e => match e with | .actionExec n => some n | _ => none)

def isLlmCall : Event → Bool
  | .llmCall => true
  | _ => false

def isSavedOutbound : Event → Bool
  | .savedOutbound _ => true
  | _ => false

def isSentApology : Event → Bool
  | .sentApology _ => true
  | _ => false

def llmCallCount (tr : List Event) : Nat := tr.countP isLlmCall

def outboundCount (tr : List Event) : Nat := tr.countP isSavedOutbound

def apologyCount (tr : List Event) : Nat := tr.countP isSentApology

/-! ## Shared helper lemmas -/

instance {ε α : Type} [DecidableEq ε] [DecidableEq α] : DecidableEq (Except ε α) :=
  fun x y =>
    match x, y with
    | .ok a, .ok b =>
      if h : a = b then isTrue (by rw [h]) else isFalse (by intro hc; cases hc; exact h rfl)
    | .error a, .error b =>
      if h : a = b then isTrue (by rw [h]) else isFalse (by intro hc; cases hc; exact h rfl)
    | .ok _, .error _ => isFalse (by intro hc; cases hc)
    | .error _, .ok _ => isFalse (by intro hc; cases hc)

theorem any_of_find?_some {α : Type} {p : α → Bool} {l : List α} {a : α}
    (h : l.find? p = some a) : l.any p = true :=
  List.any_eq_true.mpr ⟨a, List.mem_of_find?_eq_some h, List.find?_some h⟩

/-- Finding by id after an id-preserving update of the matching contacts. -/
theorem find_contact_map_update (l : List Contact) (cid : String)
    (f : Contact → Contact) (hf : ∀ c, (f c).id = c.id) :
    (l.map (fun c => if c.id == cid then f c else c)).find? (fun c => c.id == cid) =
      (l.find? (fun c => c.id == cid)).map f := by
  induction l with
  | nil => rfl
  | cons a l ih =>
    by_cases h : (a.id == cid) = true
    · simp only [List.map_cons]
      rw [if_pos h]
      simp [List.find?_cons, hf a, h]
    · have h0 : (a.id == cid) = false := by simpa using h
      simp only [List.map_cons]
      rw [if_neg h]
      simp only [List.find?_cons, h0]
      exact ih

/-- Finding by id after an id-preserving update of the matching bookings. -/
theorem find_booking_map_update (l : List Booking) (bid : String)
    (f : Booking → Booking) (hf : ∀ b, (f b).id = b.id) :
    (l.map (fun b => if b.id == bid then f b else b)).find? (fun b => b.id == bid) =
      (l.find? (fun b => b.id == bid)).map f := by
  induction l with
  | nil => rfl
  | cons a l ih =>
    by_cases h : (a.id == bid) = true
    · simp only [List.map_cons]
      rw [if_pos h]
      simp [List.find?_cons, hf a, h]
    · have h0 : (a.id == bid) = false := by simpa using h
      simp only [List.map_cons]
      rw [if_neg h]
      simp only [List.find?_cons, h0]
      exact ih

/-! ## Claim C4: createBooking with an unparsable dateTime -/

/-- C4: for an existing contact, createBooking with a dateTime string that
parses neither as a full ISO timestamp nor as a bare date throws the
invalid-date error and performs no write: the store is returned unchanged,
so no Booking row is inserted and the contact's status is untouched. -/
theorem createBooking_unparsable_datetime_no_write
    (s : Store) (cid svc dt : String) (notes : Option String) (c : Contact)
    (hc : findContact s cid = some c) (hdt : parseDate dt = none) :
    createBooking s cid svc dt notes = (.error .invalidDate, s) := by
  unfold createBooking
  rw [hc, hdt]

def c4contact : Contact := { id := "c1", phoneNumber := "5215551234567" }

def c4store : Store := { contacts := [c4contact] }

/-- Witness for C4 at a concrete store and an unparsable date string. -/
theorem createBooking_unparsable_datetime_no_write_witness :
    createBooking c4store "c1" "Boda espiritual" "mañana" none =
      (.error .invalidDate, c4store) :=
  createBooking_unparsable_datetime_no_write c4store "c1" "Boda espiritual" "mañana"
    none c4contact (by decide) (by decide)

/-! ## Claim C2: history retrieval -/

def c2msg (i : Nat) : Message :=
  { id := "m" ++ toString i, conversationId := "v1", direction := .INBOUND,
    content := "c" ++ toString i, timestamp := i, status := .RECEIVED }

/-- A conversation with eleven messages, timestamps 1 to 11. -/
def c2store : Store :=
  { conversations := [{ id := "v1", contactId := "c1" }],
    messages := (List.range 11).map (fun i => c2msg (i + 1)) }

/-- C2 evaluated at the failing input: with eleven messages in the
conversation, getMessageHistory orders ascending and takes the first ten, so
it returns the ten oldest messages and drops the newest one (content c11);
the most recent ten in ascending order would instead be c2 through c11. -/
theorem getMessageHistory_returns_oldest_ten :
    (getMessageHistory "v1" c2store).map (fun t => t.content) =
      ["c1", "c2", "c3", "c4", "c5", "c6", "c7", "c8", "c9", "c10"] ∧
    ((getMessageHistory "v1" c2store).map (fun t => t.content)).contains "c11" = false := by
  decide

/-! ## Claim C10: positional binding of tool-call arguments -/

def c10contact : Contact := { id := "c1", phoneNumber := "5215551234567" }

def c10store : Store := { contacts := [c10contact] }

/-- C10: dispatch binds handler parameters positionally from the key order
of the model-supplied arguments object (Object.values), never by name.
With the keys in the declared parameter order, addContactNotes receives the
contact id and the note correctly and appends the timestamped note; the same
well-schema'd key-value set with its two keys in the other order passes the
note text in the contactId position, so the handler looks for a contact whose
id is the note text, reports it missing, and the note is never recorded. -/
theorem dispatch_binds_positionally :
    argVals [("notes", JVal.jstr "hola"), ("contactId", JVal.jstr "c1")] =
      [JVal.jstr "hola", JVal.jstr "c1"] ∧
    dispatch 7 c10store "addContactNotes"
        (argVals [("contactId", JVal.jstr "c1"), ("notes", JVal.jstr "hola")]) =
      (.ok { success := true, message := some "Notas agregadas correctamente" },
       { c10store with contacts := [{ c10contact with notes := some "7: hola" }] }) ∧
    dispatch 7 c10store "addContactNotes"
        (argVals [("notes", JVal.jstr "hola"), ("contactId", JVal.jstr "c1")]) =
      (.ok { success := false, error := some "Contacto hola no encontrado" }, c10store) := by
  refine ⟨rfl, ?_, ?_⟩ <;> decide

/-! ## Claim C3: booking status transitions cascade onto the contact -/

/-- Running contactUpdateStatus when the contact is present: the equation
for the success branch. -/
theorem contactUpdateStatus_run (s : Store) (cid : String) (st : ContactStatus)
    (hany : (s.contacts.any fun x => x.id == cid) = true) :
    contactUpdateStatus s cid st =
      .ok { s with contacts := s.contacts.map (fun x =>
              if x.id == cid then { x with status := st } else x) } := by
  unfold contactUpdateStatus
  rw [if_pos hany]

/-- C3: for a booking owned by the given existing contact, updateBookingStatus
to COMPLETED always sets the contact to CUSTOMER; updateBookingStatus to
CANCELLED or NO_SHOW sets the contact to LEAD exactly when no PENDING or
CONFIRMED booking of the contact remains after the transition, and leaves
the contact untouched when at least one remains. -/
theorem updateBookingStatus_contact_cascade
    (s : Store) (contactId bookingId : String) (status : BookingStatus)
    (notes : Option String) (b : Booking) (c : Contact)
    (hb : findBooking s bookingId = some b)
    (hown : b.contactId = contactId)
    (hc : findContact s contactId = some c) :
    (status = .COMPLETED →
      findContact (updateBookingStatus s contactId bookingId status notes).2 contactId =
        some { c with status := .CUSTOMER }) ∧
    ((status = .CANCELLED ∨ status = .NO_SHOW) →
      (activeBookingCount (updateBookingStatus s contactId bookingId status notes).2 contactId = 0 →
        findContact (updateBookingStatus s contactId bookingId status notes).2 contactId =
          some { c with status := .LEAD }) ∧
      (activeBookingCount (updateBookingStatus s contactId bookingId status notes).2 contactId ≠ 0 →
        findContact (updateBookingStatus s contactId bookingId status notes).2 contactId =
          some c)) := by
  have hbeq : (b.contactId != contactId) = false := by simp [hown]
  have hany : (s.contacts.any fun x => x.id == contactId) = true :=
    any_of_find?_some hc
  have hcl : s.contacts.find? (fun x => x.id == contactId) = some c := hc
  cases status with
  | PENDING =>
    exact ⟨(fun h => nomatch h),
           (fun h => h.elim (fun h1 => nomatch h1) (fun h2 => nomatch h2))⟩
  | CONFIRMED =>
    exact ⟨(fun h => nomatch h),
           (fun h => h.elim (fun h1 => nomatch h1) (fun h2 => nomatch h2))⟩
  | COMPLETED =>
    refine ⟨fun _ => ?_,
            (fun h => h.elim (fun h1 => nomatch h1) (fun h2 => nomatch h2))⟩
    have e1 : (BookingStatus.COMPLETED == BookingStatus.COMPLETED) = true := rfl
    unfold updateBookingStatus cascadeContact
    rw [hb]
    simp only [hbeq, Bool.false_eq_true, if_false, e1, eq_self_iff_true, if_true]
    rw [contactUpdateStatus_run _ _ _ (by exact hany)]
    show List.find? (fun x => x.id == contactId)
        (s.contacts.map (fun x =>
          if x.id == contactId then { x with status := ContactStatus.CUSTOMER } else x)) =
      some { c with status := ContactStatus.CUSTOMER }
    rw [find_contact_map_update s.contacts contactId
      (fun x => { x with status := ContactStatus.CUSTOMER }) (fun _ => rfl), hcl]
    rfl
  | CANCELLED =>
    refine ⟨(fun h => nomatch h), fun _ => ?_⟩
    have e1 : (BookingStatus.CANCELLED == BookingStatus.COMPLETED) = false := rfl
    have e2 : (BookingStatus.CANCELLED == BookingStatus.CANCELLED ||
               BookingStatus.CANCELLED == BookingStatus.NO_SHOW) = true := rfl
    unfold updateBookingStatus cascadeContact
    rw [hb]
    simp only [hbeq, Bool.false_eq_true, if_false, e1, e2, eq_self_iff_true, if_true]
    split
    · next h0 =>
      rw [contactUpdateStatus_run _ _ _ (by exact hany)]
      constructor
      · intro _
        show List.find? (fun x => x.id == contactId)
            (s.contacts.map (fun x =>
              if x.id == contactId then { x with status := ContactStatus.LEAD } else x)) =
          some { c with status := ContactStatus.LEAD }
        rw [find_contact_map_update s.contacts contactId
          (fun x => { x with status := ContactStatus.LEAD }) (fun _ => rfl), hcl]
        rfl
      · intro hne
        exact absurd (by simpa using h0) hne
    · next h0 =>
      exact ⟨(fun hz => absurd hz (by simpa using h0)), (fun _ => hc)⟩
  | NO_SHOW =>
    refine ⟨(fun h => nomatch h), fun _ => ?_⟩
    have e1 : (BookingStatus.NO_SHOW == BookingStatus.COMPLETED) = false := rfl
    have e2 : (BookingStatus.NO_SHOW == BookingStatus.CANCELLED ||
               BookingStatus.NO_SHOW == BookingStatus.NO_SHOW) = true := rfl
    unfold updateBookingStatus cascadeContact
    rw [hb]
    simp only [hbeq, Bool.false_eq_true, if_false, e1, e2, eq_self_iff_true, if_true]
    split
    · next h0 =>
      rw [contactUpdateStatus_run _ _ _ (by exact hany)]
      constructor
      · intro _
        show List.find? (fun x => x.id == contactId)
            (s.contacts.map (fun x =>
              if x.id == contactId then { x with status := ContactStatus.LEAD } else x)) =
          some { c with status := ContactStatus.LEAD }
        rw [find_contact_map_update s.contacts contactId
          (fun x => { x with status := ContactStatus.LEAD }) (fun _ => rfl), hcl]
        rfl
      · intro hne
        exact absurd (by simpa using h0) hne
    · next h0 =>
      exact ⟨(fun hz => absurd hz (by simpa using h0)), (fun _ => hc)⟩

def c3contact : Contact := { id := "c1", phoneNumber := "5215551234567", status := .OPPORTUNITY }

def c3booking : Booking :=
  { id := "b1", contactId := "c1", serviceName := "Boda espiritual", dateTime := 20250726 }

def c3store : Store := { contacts := [c3contact], bookings := [c3booking] }

/-- Witness for C3: cancelling the contact's only PENDING booking reverts
the contact to LEAD. -/
theorem updateBookingStatus_contact_cascade_witness :
    findContact (updateBookingStatus c3store "c1" "b1" .CANCELLED none).2 "c1" =
      some { c3contact with status := .LEAD } := by
  have h := updateBookingStatus_contact_cascade c3store "c1" "b1" .CANCELLED none
    c3booking c3contact (by decide) (by decide) (by decide)
  exact (h.2 (Or.inl rfl)).1 (by decide)

/-! ## Claim C9: analyzeCustomerIntent update behaviour -/

/-- Finding by id after an id-preserving update of the matching
conversations. -/
theorem find_conversation_map_update (l : List Conversation) (vid : String)
    (f : Conversation → Conversation) (hf : ∀ v, (f v).id = v.id) :
    (l.map (fun v => if v.id == vid then f v else v)).find? (fun v => v.id == vid) =
      (l.find? (fun v => v.id == vid)).map f := by
  induction l with
  | nil => rfl
  | cons a l ih =>
    by_cases h : (a.id == vid) = true
    · simp only [List.map_cons]
      rw [if_pos h]
      simp [List.find?_cons, hf a, h]
    · have h0 : (a.id == vid) = false := by simpa using h
      simp only [List.map_cons]
      rw [if_neg h]
      simp only [List.find?_cons, h0]
      exact ih

def c9oldContact : Contact :=
  { id := "c1", phoneNumber := "5215551234567",
    customFields := some { interestedIn := some ["temazcal"], rest := [] } }

def c9conv : Conversation := { id := "v1", contactId := "c1" }

def c9store : Store := { contacts := [c9oldContact], conversations := [c9conv] }

/-- Counterexample to C9 as stated: the contact already has the recorded
interest temazcal; analyzeCustomerIntent supplying the new interest list
leaves only the supplied list on the contact — the previously recorded entry
is not preserved, because the update replaces the interestedIn key rather
than merging the lists. -/
theorem analyzeCustomerIntent_replaces_interestedIn :
    (c9oldContact.customFields.bind (fun cf => cf.interestedIn)) = some ["temazcal"] ∧
    ((findContact (analyzeCustomerIntent c9store "c1" "SERVICE_INQUIRY"
        .LEAD 50 (some ["cabanas"]) false {}).2 "c1").bind
      (fun c => c.customFields.bind (fun cf => cf.interestedIn))) = some ["cabanas"] := by
  decide

/-- C9 amended: analyzeCustomerIntent sets the contact's status and
leadScore to the supplied values, sets name and email only when extractedInfo
carries a non-empty value, and merges customFields at the blob level: keys
other than interestedIn are preserved, but the interestedIn list itself is
replaced by the supplied list whenever that list is non-empty (previously
recorded entries not in the new list are lost).  The active conversation gets
intent set and its context merged: lastAnalyzedIntent, needsHumanAgent and
extractedInfo are written, the other context keys are preserved. -/
theorem analyzeCustomerIntent_update
    (s : Store) (contactId intent : String) (contactStatus : ContactStatus)
    (leadScore : Int) (interestedIn : Option (List String)) (needsHumanAgent : Bool)
    (extractedInfo : ExtractedInfo) (c : Contact) (v : Conversation)
    (hc : findContact s contactId = some c)
    (hv : findActiveConversation s contactId = some v)
    (hvid : findConversationById s v.id = some v) :
    (analyzeCustomerIntent s contactId intent contactStatus leadScore interestedIn
        needsHumanAgent extractedInfo).1 =
      .ok { success := true, message := some "Contacto actualizado" } ∧
    findContact (analyzeCustomerIntent s contactId intent contactStatus leadScore
        interestedIn needsHumanAgent extractedInfo).2 contactId =
      some { c with
        status := contactStatus,
        leadScore := some leadScore,
        name := if strTruthy extractedInfo.name then extractedInfo.name else c.name,
        email := if strTruthy extractedInfo.email then extractedInfo.email else c.email,
        customFields :=
          match interestedIn with
          | some l =>
            if l.isEmpty then c.customFields
            else some { interestedIn := some l, rest := (c.customFields.getD {}).rest }
          | none => c.customFields } ∧
    findConversationById (analyzeCustomerIntent s contactId intent contactStatus leadScore
        interestedIn needsHumanAgent extractedInfo).2 v.id =
      some { v with
        intent := some intent,
        context := some { lastAnalyzedIntent := some intent,
                          needsHumanAgent := some needsHumanAgent,
                          extractedInfo := some extractedInfo,
                          rest := (v.context.getD {}).rest } } := by
  have hcl : s.contacts.find? (fun x => x.id == contactId) = some c := hc
  have hvl : s.conversations.find? (fun w => w.id == v.id) = some v := hvid
  unfold analyzeCustomerIntent
  rw [hc, hv]
  refine ⟨rfl, ?_, ?_⟩
  · show List.find? (fun x => x.id == contactId)
        (s.contacts.map (fun x =>
          if x.id == contactId then
            { x with
              status := contactStatus,
              leadScore := some leadScore,
              name := if strTruthy extractedInfo.name then extractedInfo.name else c.name,
              email := if strTruthy extractedInfo.email then extractedInfo.email else c.email,
              customFields :=
                match interestedIn with
                | some l =>
                  if l.isEmpty then c.customFields
                  else some { interestedIn := some l, rest := (c.customFields.getD {}).rest }
                | none => c.customFields }
          else x)) = _
    rw [find_contact_map_update s.contacts contactId _ (by intro x; rfl), hcl]
    rfl
  · show List.find? (fun w => w.id == v.id)
        (s.conversations.map (fun w =>
          if w.id == v.id then
            { w with
              intent := some intent,
              context := some { lastAnalyzedIntent := some intent,
                                needsHumanAgent := some needsHumanAgent,
                                extractedInfo := some extractedInfo,
                                rest := (v.context.getD {}).rest } }
          else w)) = _
    rw [find_conversation_map_update s.conversations v.id _ (by intro w; rfl), hvl]
    simp

/-- Witness for C9 amended at the concrete store: the contact row and the
conversation row after the call. -/
theorem analyzeCustomerIntent_update_witness :
    findContact (analyzeCustomerIntent c9store "c1" "SERVICE_INQUIRY"
        .LEAD 50 (some ["cabanas"]) false {}).2 "c1" =
      some { c9oldContact with
        status := .LEAD, leadScore := some 50,
        customFields := some { interestedIn := some ["cabanas"], rest := [] } } := by
  have h := analyzeCustomerIntent_update c9store "c1" "SERVICE_INQUIRY" .LEAD 50
    (some ["cabanas"]) false {} c9oldContact c9conv (by decide) (by decide) (by decide)
  exact h.2.1

/-! ## Claim C7: contact resolution and the first-contact race -/

def c7mid : Store → Store :=
  fun s => { s with contacts := s.contacts ++
    [{ id := "other", phoneNumber := "5215551234567", name := some "X" }] }

def c7env : Env := {}

/-- Counterexample to C7 as stated: in a first-contact race where another
task inserts the contact row between this task's lookup and its create, the
create hits the phone-number uniqueness key and findOrCreateContact
propagates the duplicate-key failure instead of catching it and re-fetching
the existing row. -/
theorem findOrCreateContact_race_error_propagates :
    (findOrCreateContactRaced c7mid c7env "5215551234567@c.us" {}).1 =
      .error .dupKey := by
  decide

/-- C7 amended: re-resolving a phone number that already has a Contact row
returns that row and inserts nothing, so re-resolution never creates a
second row; in a first-contact race where a concurrent task creates the row
between the lookup and the create, the uniqueness key makes the create fail,
so no duplicate row is ever inserted, but the duplicate-key failure
propagates out of the resolver instead of being caught and answered with a
re-fetch of the existing row. -/
theorem findOrCreateContact_no_duplicate_but_race_propagates :
    (∀ env chatId s c, findContactByPhone s (phoneOf chatId) = some c →
      (findOrCreateContact env chatId s).1 = .ok c ∧
      (findOrCreateContact env chatId s).2.contacts.length = s.contacts.length) ∧
    (∀ env chatId s mid, findContactByPhone s (phoneOf chatId) = none →
      ((mid s).contacts.any fun x => x.phoneNumber == phoneOf chatId) = true →
      findOrCreateContactRaced mid env chatId s = (.error .dupKey, mid s)) := by
  constructor
  · intro env chatId s c hfind
    unfold findOrCreateContact
    simp [findOrCreateContactRaced, hfind]
  · intro env chatId s mid hnone hdup
    simp only [findOrCreateContactRaced, hnone, createContactRow, hdup, if_true]

def c7seqContact : Contact := { id := "c1", phoneNumber := "5215551234567" }

def c7seqStore : Store := { contacts := [c7seqContact] }

/-- Witness for C7 amended: re-resolving an existing contact returns the
stored row and adds none. -/
theorem findOrCreateContact_no_duplicate_witness :
    (findOrCreateContact c7env "5215551234567@c.us" c7seqStore).1 = .ok c7seqContact ∧
    (findOrCreateContact c7env "5215551234567@c.us" c7seqStore).2.contacts.length =
      c7seqStore.contacts.length :=
  findOrCreateContact_no_duplicate_but_race_propagates.1 c7env "5215551234567@c.us"
    c7seqStore c7seqContact (by decide)

/-! ## Claim C8: at most one active conversation per contact -/

/-- No two distinct conversation rows are both active for the same contact. -/
def ConvRel (v w : Conversation) : Prop :=
  ¬(v.isActive = true ∧ w.isActive = true ∧ v.contactId = w.contactId)

/-- The invariant: at most one active conversation per contact at any
observation point. -/
def AtMostOneActive (s : Store) : Prop :=
  List.Pairwise ConvRel s.conversations

theorem atMostOneActive_of_conversations_eq {s t : Store}
    (h : t.conversations = s.conversations) (hs : AtMostOneActive s) :
    AtMostOneActive t := by
  unfold AtMostOneActive
  rw [h]
  exact hs

theorem insertDescBy_ne_nil {α : Type} (key : α → Nat) (x : α) (l : List α) :
    insertDescBy key x l ≠ [] := by
  cases l with
  | nil => simp [insertDescBy]
  | cons y ys =>
    unfold insertDescBy
    split <;> simp

theorem sortDescBy_eq_nil_iff {α : Type} (key : α → Nat) (l : List α) :
    sortDescBy key l = [] ↔ l = [] := by
  cases l with
  | nil => simp [sortDescBy]
  | cons x xs =>
    unfold sortDescBy
    simp [insertDescBy_ne_nil]

/-- A none result of findActiveConversation means no row of the conversation
table is both active and owned by the contact. -/
theorem findActiveConversation_none {s : Store} {cid : String}
    (h : findActiveConversation s cid = none) :
    ∀ v ∈ s.conversations, ¬(v.contactId = cid ∧ v.isActive = true) := by
  unfold findActiveConversation at h
  rw [List.head?_eq_none_iff, sortDescBy_eq_nil_iff, List.filter_eq_nil_iff] at h
  intro v hv hcontra
  exact h v hv (by simp [hcontra.1, hcontra.2])

/-- When no active conversation exists, getOrCreateConversation appends one
new conversation row, active and owned by the contact. -/
theorem getOrCreateConversation_creates (s : Store) (cid : String) (now : Nat)
    (hfa : findActiveConversation s cid = none) :
    (getOrCreateConversation cid now s).2.conversations =
      s.conversations ++ [(getOrCreateConversation cid now s).1] ∧
    (getOrCreateConversation cid now s).1.isActive = true ∧
    (getOrCreateConversation cid now s).1.contactId = cid := by
  unfold getOrCreateConversation
  rw [hfa]
  exact ⟨rfl, rfl, rfl⟩

theorem getOrCreateConversation_inv (s : Store) (cid : String) (now : Nat)
    (hs : AtMostOneActive s) :
    AtMostOneActive (getOrCreateConversation cid now s).2 := by
  cases hfa : findActiveConversation s cid with
  | some v =>
    have : getOrCreateConversation cid now s = (v, s) := by
      unfold getOrCreateConversation
      rw [hfa]
    rw [this]
    exact hs
  | none =>
    obtain ⟨hconv, hact, hcid⟩ := getOrCreateConversation_creates s cid now hfa
    unfold AtMostOneActive
    rw [hconv, List.pairwise_append]
    refine ⟨hs, List.pairwise_singleton _ _, ?_⟩
    intro a ha b hb
    have hbeq : b = (getOrCreateConversation cid now s).1 := by simpa using hb
    intro hcontra
    refine findActiveConversation_none hfa a ha ⟨?_, hcontra.1⟩
    rw [hcontra.2.2, hbeq, hcid]

theorem contactUpdateStatus_ok_conversations {s : Store} {cid : String}
    {st : ContactStatus} {s2 : Store}
    (h : contactUpdateStatus s cid st = .ok s2) : s2.conversations = s.conversations := by
  unfold contactUpdateStatus at h
  split at h
  · cases h
    rfl
  · exact Except.noConfusion h

theorem createBooking_conversations (s : Store) (cid svc dt : String)
    (n : Option String) : (createBooking s cid svc dt n).2.conversations = s.conversations := by
  unfold createBooking
  split
  · rfl
  · split <;> rfl

theorem cascadeContact_conversations (s1 : Store) (cid : String)
    (st : BookingStatus) :
    (cascadeContact s1 cid st).2.conversations = s1.conversations := by
  unfold cascadeContact
  split
  · split
    · next s2 heq => rw [contactUpdateStatus_ok_conversations heq]
    · rfl
  · split
    · split
      · split
        · next s2 heq => rw [contactUpdateStatus_ok_conversations heq]
        · rfl
      · rfl
    · rfl

theorem updateBookingStatus_conversations (s : Store) (cid bid : String)
    (st : BookingStatus) (n : Option String) :
    (updateBookingStatus s cid bid st n).2.conversations = s.conversations := by
  simp only [updateBookingStatus]
  split
  · rfl
  · split
    · rfl
    · exact cascadeContact_conversations _ _ _

theorem updateContactInfo_conversations (s : Store) (cid : String) (u : UpdateData) :
    (updateContactInfo s cid u).2.conversations = s.conversations := by
  unfold updateContactInfo
  split <;> rfl

theorem getContactBookings_conversations (s : Store) (cid : String)
    (st : Option BookingStatus) :
    (getContactBookings s cid st).2.conversations = s.conversations := by
  unfold getContactBookings
  split <;> rfl

theorem addContactNotes_conversations (s : Store) (now : Nat) (cid n : String) :
    (addContactNotes s now cid n).2.conversations = s.conversations := by
  unfold addContactNotes
  split <;> rfl

theorem createContactRow_ok_conversations {s : Store} {phone nm : String}
    {now : Nat} {cs : Contact × Store}
    (h : createContactRow s phone nm now = .ok cs) :
    cs.2.conversations = s.conversations := by
  unfold createContactRow at h
  split at h
  · exact Except.noConfusion h
  · cases h
    rfl

theorem findOrCreateContactRaced_conversations (mid : Store → Store) (env : Env)
    (chatId : String) (s : Store) :
    (findOrCreateContactRaced mid env chatId s).2.conversations = (mid s).conversations ∨
    (findOrCreateContactRaced mid env chatId s).2.conversations = s.conversations := by
  simp only [findOrCreateContactRaced]
  split
  · split
    · exact Or.inl rfl
    · next cs heq => exact Or.inl (createContactRow_ok_conversations heq)
  · exact Or.inr rfl

theorem analyzeCustomerIntent_inv (s : Store) (cid intent : String)
    (cs : ContactStatus) (ls : Int) (ii : Option (List String)) (nha : Bool)
    (ei : ExtractedInfo) (hs : AtMostOneActive s) :
    AtMostOneActive (analyzeCustomerIntent s cid intent cs ls ii nha ei).2 := by
  unfold analyzeCustomerIntent
  split
  · exact hs
  · split
    · exact hs
    · next v _ =>
      unfold AtMostOneActive
      show List.Pairwise ConvRel (s.conversations.map _)
      refine List.Pairwise.map _ ?_ hs
      intro a b hab hcontra
      apply hab
      constructor
      · by_cases h : (a.id == v.id) = true
        · rw [if_pos h] at hcontra
          exact hcontra.1
        · rw [if_neg h] at hcontra
          exact hcontra.1
      constructor
      · by_cases h : (b.id == v.id) = true
        · rw [if_pos h] at hcontra
          exact hcontra.2.1
        · rw [if_neg h] at hcontra
          exact hcontra.2.1
      · have ha : (if (a.id == v.id) = true then
            { a with intent := some intent,
                     context := some { lastAnalyzedIntent := some intent,
                                       needsHumanAgent := some nha,
                                       extractedInfo := some ei,
                                       rest := (v.context.getD {}).rest } }
            else a).contactId = a.contactId := by
          split <;> rfl
        have hb : (if (b.id == v.id) = true then
            { b with intent := some intent,
                     context := some { lastAnalyzedIntent := some intent,
                                       needsHumanAgent := some nha,
                                       extractedInfo := some ei,
                                       rest := (v.context.getD {}).rest } }
            else b).contactId = b.contactId := by
          split <;> rfl
        rw [← ha, ← hb]
        exact hcontra.2.2

theorem saveMessage_conversations (conversationId : String) (messageId : Option String)
    (content : String) (direction : MessageDirection) (now : Nat) (s : Store) :
    (saveMessage conversationId messageId content direction now s).2.conversations =
      s.conversations := rfl

theorem dispatch_inv (now : Nat) (s : Store) (name : String) (vals : List JVal)
    (hs : AtMostOneActive s) : AtMostOneActive (dispatch now s name vals).2 := by
  unfold dispatch
  split
  · split
    · exact analyzeCustomerIntent_inv _ _ _ _ _ _ _ _ hs
    · exact hs
  · split
    · split
      · exact atMostOneActive_of_conversations_eq (createBooking_conversations _ _ _ _ _) hs
      · exact hs
    · split
      · split
        · exact atMostOneActive_of_conversations_eq (updateBookingStatus_conversations _ _ _ _ _) hs
        · exact hs
      · split
        · split
          · exact atMostOneActive_of_conversations_eq (updateContactInfo_conversations _ _ _) hs
          · exact hs
        · split
          · split
            · exact atMostOneActive_of_conversations_eq (getContactBookings_conversations _ _ _) hs
            · exact hs
          · split
            · split
              · exact atMostOneActive_of_conversations_eq (addContactNotes_conversations _ _ _ _) hs
              · exact hs
            · exact hs

theorem execToolCalls_inv (env : Env) (tcs : List ToolCall) (s : Store)
    (hs : AtMostOneActive s) : AtMostOneActive (execToolCalls env tcs s).2.1 := by
  induction tcs generalizing s with
  | nil => exact hs
  | cons call rest ih =>
    unfold execToolCalls
    split
    · next e s1 heq =>
      have h := dispatch_inv env.now s call.name (argVals call.args) hs
      rw [heq] at h
      exact h
    · next r s1 heq =>
      have h1 := dispatch_inv env.now s call.name (argVals call.args) hs
      rw [heq] at h1
      split
      · next r2 s2 evs heq2 =>
        have h2 := ih s1 h1
        rw [heq2] at h2
        exact h2

theorem callAI_inv (env : Env) (s : Store) (hs : AtMostOneActive s) :
    AtMostOneActive (callAI env s).2.1 := by
  unfold callAI
  split
  · exact hs
  · next aiMsg heq0 =>
    split
    · exact hs
    · split
      · next e s1 evs heq =>
        have h := execToolCalls_inv env aiMsg.toolCalls s hs
        rw [heq] at h
        exact h
      · next r s1 evs heq =>
        have h := execToolCalls_inv env aiMsg.toolCalls s hs
        rw [heq] at h
        split
        · exact h
        · exact h

theorem findOrCreateContact_store_conversations (env : Env) (chatId : String) (s : Store) :
    (findOrCreateContact env chatId s).2.conversations = s.conversations := by
  rcases findOrCreateContactRaced_conversations id env chatId s with h | h
  · exact h
  · exact h

theorem processBody_inv (env : Env) (md : MessageData) (s : Store)
    (hs : AtMostOneActive s) : AtMostOneActive (processBody env md s).2.1 := by
  unfold processBody
  split
  · next e s1 heq =>
    have h : (findOrCreateContact env md.chatId s).2.conversations = s.conversations :=
      findOrCreateContact_store_conversations env md.chatId s
    rw [heq] at h
    exact atMostOneActive_of_conversations_eq h hs
  · next contact s1 heq =>
    have h1 : (findOrCreateContact env md.chatId s).2.conversations = s.conversations :=
      findOrCreateContact_store_conversations env md.chatId s
    rw [heq] at h1
    have hs1 : AtMostOneActive s1 := atMostOneActive_of_conversations_eq h1 hs
    split
    · next conversation s2 heq2 =>
      have hs2 : AtMostOneActive s2 := by
        have h2 := getOrCreateConversation_inv s1 contact.id env.now hs1
        rw [heq2] at h2
        exact h2
      split
      · next m s3 heq3 =>
        have hs3 : AtMostOneActive s3 := by
          have h3 := atMostOneActive_of_conversations_eq
            (saveMessage_conversations conversation.id (some md.messageId) md.content
              .INBOUND env.now s2) hs2
          rw [heq3] at h3
          exact h3
        split
        · next e s4 evs heq4 =>
          have h4 := callAI_inv env s3 hs3
          rw [heq4] at h4
          exact h4
        · next ai s4 evs heq4 =>
          have hs4 : AtMostOneActive s4 := by
            have h4 := callAI_inv env s3 hs3
            rw [heq4] at h4
            exact h4
          split
          · split
            · split
              · next m2 s5 heq5 =>
                have h5 := atMostOneActive_of_conversations_eq
                  (saveMessage_conversations conversation.id none ai.message
                    .OUTBOUND env.now s4) hs4
                rw [heq5] at h5
                exact h5
            · exact hs4
          · exact hs4

theorem processMessage_inv (env : Env) (md : MessageData) (s : Store)
    (hs : AtMostOneActive s) : AtMostOneActive (processMessage env md s).2.1 := by
  unfold processMessage
  split
  · next s1 evs heq =>
    have h := processBody_inv env md s hs
    rw [heq] at h
    exact h
  · next e s1 evs heq =>
    have h := processBody_inv env md s hs
    rw [heq] at h
    exact h

/-- Full characterization of one controller run: the handler always returns
normally, the final store and trace are those of the single pipeline run
when typing could start (untouched otherwise), and exactly one apology send
is appended exactly when the pipeline failed and the fallback gateway calls
succeed. -/
theorem handleTextMessageAsync_run (env : Env) (md : MessageData) (s : Store) :
    handleTextMessageAsync env md s =
      (.ok (),
       (if env.gwStartOk then (processMessage env md s).2.1 else s),
       (if env.gwStartOk then (processMessage env md s).2.2 else []) ++
       (if (!env.gwStartOk || !(processMessage env md s).1.success) &&
           (env.gwStopOk && env.gwSendOk) then [Event.sentApology apologyText]
        else [])) := by
  rcases hpm : processMessage env md s with ⟨res, s1, evs⟩
  cases hst : env.gwStartOk <;> cases hsu : res.success <;>
    cases hso : env.gwStopOk <;> cases hse : env.gwSendOk <;>
      simp [handleTextMessageAsync, hpm, hst, hsu, hso, hse]

theorem handleTextMessageAsync_inv (env : Env) (md : MessageData) (s : Store)
    (hs : AtMostOneActive s) : AtMostOneActive (handleTextMessageAsync env md s).2.1 := by
  rw [handleTextMessageAsync_run]
  cases hst : env.gwStartOk <;> simp only [hst]
  · simp only [Bool.false_eq_true, if_false]
    exact hs
  · simp only [if_true]
    exact processMessage_inv env md s hs

instance (v w : Conversation) : Decidable (ConvRel v w) := by
  unfold ConvRel
  infer_instance

instance (s : Store) : Decidable (AtMostOneActive s) := by
  unfold AtMostOneActive
  infer_instance

/-- C8: at most one conversation is active per contact at any observation
point: getOrCreateConversation reuses the existing active conversation when
one exists and appends one new active conversation only when none exists,
and every core operation — conversation reuse or creation, contact
resolution, tool-call dispatch of every registry action, the processMessage
pipeline and the controller handler — preserves the invariant. -/
theorem at_most_one_active_conversation_invariant :
    (∀ s cid now v, findActiveConversation s cid = some v →
      getOrCreateConversation cid now s = (v, s)) ∧
    (∀ s cid now, findActiveConversation s cid = none →
      (getOrCreateConversation cid now s).2.conversations =
        s.conversations ++ [(getOrCreateConversation cid now s).1] ∧
      (getOrCreateConversation cid now s).1.isActive = true) ∧
    (∀ s cid now, AtMostOneActive s →
      AtMostOneActive (getOrCreateConversation cid now s).2) ∧
    (∀ env chatId s, AtMostOneActive s →
      AtMostOneActive (findOrCreateContact env chatId s).2) ∧
    (∀ now s name vals, AtMostOneActive s →
      AtMostOneActive (dispatch now s name vals).2) ∧
    (∀ env md s, AtMostOneActive s →
      AtMostOneActive (processMessage env md s).2.1) ∧
    (∀ env md s, AtMostOneActive s →
      AtMostOneActive (handleTextMessageAsync env md s).2.1) := by
  refine ⟨?_, ?_, ?_, ?_, ?_, ?_, ?_⟩
  · intro s cid now v hv
    unfold getOrCreateConversation
    rw [hv]
  · intro s cid now h
    exact ⟨(getOrCreateConversation_creates s cid now h).1,
           (getOrCreateConversation_creates s cid now h).2.1⟩
  · intro s cid now hs
    exact getOrCreateConversation_inv s cid now hs
  · intro env chatId s hs
    exact atMostOneActive_of_conversations_eq
      (findOrCreateContact_store_conversations env chatId s) hs
  · intro now s name vals hs
    exact dispatch_inv now s name vals hs
  · intro env md s hs
    exact processMessage_inv env md s hs
  · intro env md s hs
    exact handleTextMessageAsync_inv env md s hs

def c8conv : Conversation := { id := "v1", contactId := "c1", startedAt := 3 }

def c8store : Store :=
  { contacts := [{ id := "c1", phoneNumber := "5215551234567" }],
    conversations := [c8conv] }

/-- Witness for C8: the active conversation is reused unchanged, and
creating one for a contact without an active conversation keeps the
invariant. -/
theorem at_most_one_active_conversation_invariant_witness :
    getOrCreateConversation "c1" 9 c8store = (c8conv, c8store) ∧
    AtMostOneActive (getOrCreateConversation "c2" 9 c8store).2 :=
  ⟨at_most_one_active_conversation_invariant.1 c8store "c1" 9 c8conv (by decide),
   at_most_one_active_conversation_invariant.2.2.1 c8store "c2" 9 (by decide)⟩

/-! ## Claim C1: the tool-call path of the orchestrator -/

/-- When the tool-call loop completes, its trace is exactly one actionExec
event per tool call, in the order the model returned them. -/
theorem execToolCalls_ok_events (env : Env) (tcs : List ToolCall) (s : Store)
    (h : (execToolCalls env tcs s).1 = .ok ()) :
    (execToolCalls env tcs s).2.2 = tcs.map (fun c => Event.actionExec c.name) := by
  induction tcs generalizing s with
  | nil => rfl
  | cons call rest ih =>
    rcases hd : dispatch env.now s call.name (argVals call.args) with ⟨r, s1⟩
    cases r with
    | error e =>
      have heq : execToolCalls env (call :: rest) s =
          (.error e, s1, [Event.actionExec call.name]) := by
        unfold execToolCalls
        rw [hd]
      rw [heq] at h
      exact Except.noConfusion h
    | ok a =>
      rcases he : execToolCalls env rest s1 with ⟨r2, s2, evs⟩
      have heq : execToolCalls env (call :: rest) s =
          (r2, s2, Event.actionExec call.name :: evs) := by
        unfold execToolCalls
        rw [hd]
        simp only [he]
      rw [heq] at h ⊢
      have h2 : (execToolCalls env rest s1).1 = .ok () := by
        rw [he]
        exact h
      have hevs := ih s1 h2
      rw [he] at hevs
      exact congrArg (List.cons (Event.actionExec call.name)) hevs

/-- Every event of the tool-call loop is an actionExec. -/
theorem execToolCalls_events_shape (env : Env) (tcs : List ToolCall) (s : Store) :
    ∀ e ∈ (execToolCalls env tcs s).2.2, ∃ n, e = Event.actionExec n := by
  induction tcs generalizing s with
  | nil =>
    intro e he
    simp [execToolCalls] at he
  | cons call rest ih =>
    intro e he
    rcases hd : dispatch env.now s call.name (argVals call.args) with ⟨r, s1⟩
    cases r with
    | error er =>
      have heq : execToolCalls env (call :: rest) s =
          (.error er, s1, [Event.actionExec call.name]) := by
        unfold execToolCalls
        rw [hd]
      rw [heq] at he
      simp at he
      exact ⟨call.name, he⟩
    | ok a =>
      rcases he2 : execToolCalls env rest s1 with ⟨r2, s2, evs⟩
      have heq : execToolCalls env (call :: rest) s =
          (r2, s2, Event.actionExec call.name :: evs) := by
        unfold execToolCalls
        rw [hd]
        simp only [he2]
      rw [heq] at he
      rcases List.mem_cons.mp he with h | h
      · exact ⟨call.name, h⟩
      · have := ih s1 e
        rw [he2] at this
        exact this h

/-- Every event of callAI is an LLM round trip or an action invocation. -/
theorem callAI_events_shape (env : Env) (s : Store) :
    ∀ e ∈ (callAI env s).2.2,
      e = Event.llmCall ∨ ∃ n, e = Event.actionExec n := by
  intro e he
  unfold callAI at he
  split at he
  · simp at he
    exact Or.inl he
  · next aiMsg heq0 =>
    split at he
    · simp at he
      exact Or.inl he
    · split at he
      · next er s1 evs heq =>
        rcases List.mem_cons.mp he with h | h
        · exact Or.inl h
        · have := execToolCalls_events_shape env aiMsg.toolCalls s e
          rw [heq] at this
          exact Or.inr (this h)
      · next r s1 evs heq =>
        split at he
        · rcases List.mem_cons.mp he with h | h
          · exact Or.inl h
          · rcases List.mem_append.mp h with h2 | h2
            · have := execToolCalls_events_shape env aiMsg.toolCalls s e
              rw [heq] at this
              exact Or.inr (this h2)
            · simp at h2
              exact Or.inl h2
        · rcases List.mem_cons.mp he with h | h
          · exact Or.inl h
          · rcases List.mem_append.mp h with h2 | h2
            · have := execToolCalls_events_shape env aiMsg.toolCalls s e
              rw [heq] at this
              exact Or.inr (this h2)
            · simp at h2
              exact Or.inl h2

/-- The trace of one pipeline body run is empty, a callAI trace, or a callAI
trace followed by the sent reply and the single outbound save. -/
theorem processBody_trace_cases (env : Env) (md : MessageData) (s : Store) :
    (processBody env md s).2.2 = [] ∨
    (∃ s3, (processBody env md s).2.2 = (callAI env s3).2.2) ∨
    (∃ s3 t, (processBody env md s).2.2 =
      (callAI env s3).2.2 ++ [Event.sentReply t, Event.savedOutbound t]) := by
  unfold processBody
  split
  · exact Or.inl rfl
  · next contact s1 heq =>
    split
    · next conv s2 heq2 =>
      split
      · next m s3 heq3 =>
        split
        · next e s4 evs heq4 =>
          exact Or.inr (Or.inl ⟨s3, by rw [heq4]⟩)
        · next ai s4 evs heq4 =>
          split
          · split
            · split
              · next m2 s5 heq5 =>
                exact Or.inr (Or.inr ⟨s3, ai.message, by rw [heq4]⟩)
            · exact Or.inr (Or.inl ⟨s3, by rw [heq4]⟩)
          · exact Or.inr (Or.inl ⟨s3, by rw [heq4]⟩)

theorem processMessage_trace_cases (env : Env) (md : MessageData) (s : Store) :
    (processMessage env md s).2.2 = [] ∨
    (∃ s3, (processMessage env md s).2.2 = (callAI env s3).2.2) ∨
    (∃ s3 t, (processMessage env md s).2.2 =
      (callAI env s3).2.2 ++ [Event.sentReply t, Event.savedOutbound t]) := by
  have hb := processBody_trace_cases env md s
  have heq : (processMessage env md s).2.2 = (processBody env md s).2.2 := by
    unfold processMessage
    rcases hpb : processBody env md s with ⟨r, s1, evs⟩
    cases r <;> rfl
  rw [heq]
  exact hb

/-- processMessage never sends the apology: that text belongs to the
controller's fallback call site alone. -/
theorem processMessage_no_apology (env : Env) (md : MessageData) (s : Store) :
    apologyCount (processMessage env md s).2.2 = 0 := by
  have hshape : ∀ s3 : Store, apologyCount (callAI env s3).2.2 = 0 := by
    intro s3
    unfold apologyCount
    rw [List.countP_eq_zero]
    intro e he
    rcases callAI_events_shape env s3 e he with h | ⟨n, h⟩ <;> subst h <;> simp [isSentApology]
  rcases processMessage_trace_cases env md s with h | ⟨s3, h⟩ | ⟨s3, t, h⟩ <;> rw [h]
  · rfl
  · exact hshape s3
  · unfold apologyCount at hshape ⊢
    rw [List.countP_append, hshape s3]
    rfl

/-- processMessage persists at most one outbound message per inbound
message, whatever the environment does. -/
theorem processMessage_outbound_le_one (env : Env) (md : MessageData) (s : Store) :
    outboundCount (processMessage env md s).2.2 ≤ 1 := by
  have hshape : ∀ s3 : Store, outboundCount (callAI env s3).2.2 = 0 := by
    intro s3
    unfold outboundCount
    rw [List.countP_eq_zero]
    intro e he
    rcases callAI_events_shape env s3 e he with h | ⟨n, h⟩ <;> subst h <;> simp [isSavedOutbound]
  rcases processMessage_trace_cases env md s with h | ⟨s3, h⟩ | ⟨s3, t, h⟩ <;> rw [h]
  · exact Nat.zero_le 1
  · rw [hshape s3]
    exact Nat.zero_le 1
  · unfold outboundCount at hshape ⊢
    rw [List.countP_append, hshape s3]
    simp [isSavedOutbound]

/-- A successful callAI with tool calls present: exactly one follow-up LLM
round trip happened, its text is the reply, and the trace brackets the
per-call action events between the two LLM calls. -/
theorem callAI_ok_events (env : Env) (s : Store) (m : LLMMsg) (ai : AIResp)
    (s4 : Store) (evs : List Event)
    (h1 : env.llmFirst = some m) (h2 : m.toolCalls ≠ [])
    (hca : callAI env s = (.ok ai, s4, evs)) :
    ∃ t, env.llmFollow = some t ∧ ai.message = t ∧
      evs = Event.llmCall ::
        (m.toolCalls.map (fun c => Event.actionExec c.name) ++ [Event.llmCall]) := by
  have hne : m.toolCalls.isEmpty = false := by
    rw [List.isEmpty_eq_false]
    exact h2
  unfold callAI at hca
  rw [h1] at hca
  simp only [hne, Bool.false_eq_true, if_false] at hca
  rcases het : execToolCalls env m.toolCalls s with ⟨re, s1, evs1⟩
  simp only [het] at hca
  cases re with
  | error e => simp at hca
  | ok u =>
    cases hfo : env.llmFollow with
    | none =>
      simp only [hfo] at hca
      simp at hca
    | some t =>
      simp only [hfo] at hca
      cases hca
      have hevs := execToolCalls_ok_events env m.toolCalls s (by rw [het])
      rw [het] at hevs
      refine ⟨t, rfl, rfl, ?_⟩
      exact congrArg (fun l => Event.llmCall :: (l ++ [Event.llmCall])) hevs

/-- A successful pipeline body run ends by sending the callAI reply and
persisting it as the one outbound message. -/
theorem processBody_ok_case (env : Env) (md : MessageData) (s : Store)
    (hok : (processBody env md s).1 = .ok ()) :
    ∃ s3 ai s4 evs, callAI env s3 = (.ok ai, s4, evs) ∧
      (processBody env md s).2.2 =
        evs ++ [Event.sentReply ai.message, Event.savedOutbound ai.message] := by
  rcases hfc : findOrCreateContact env md.chatId s with ⟨rc, s1⟩
  cases rc with
  | error e =>
    have hrun : processBody env md s = (.error e, s1, []) := by
      unfold processBody
      simp only [hfc]
    rw [hrun] at hok
    exact Except.noConfusion hok
  | ok contact =>
    rcases hgc : getOrCreateConversation contact.id env.now s1 with ⟨conv, s2⟩
    rcases hsm : saveMessage conv.id (some md.messageId) md.content .INBOUND env.now s2
      with ⟨mm, s3⟩
    rcases hca : callAI env s3 with ⟨ra, s4, evs⟩
    cases ra with
    | error e =>
      have hrun : processBody env md s = (.error e, s4, evs) := by
        unfold processBody
        simp only [hfc, hgc, hsm, hca]
      rw [hrun] at hok
      exact Except.noConfusion hok
    | ok ai =>
      cases hstop : env.gwStopOk with
      | false =>
        have hrun : processBody env md s = (.error .gatewayFail, s4, evs) := by
          unfold processBody
          simp [hfc, hgc, hsm, hca, hstop]
        rw [hrun] at hok
        exact Except.noConfusion hok
      | true =>
        cases hsend : env.gwSendOk with
        | false =>
          have hrun : processBody env md s = (.error .gatewayFail, s4, evs) := by
            unfold processBody
            simp [hfc, hgc, hsm, hca, hstop, hsend]
          rw [hrun] at hok
          exact Except.noConfusion hok
        | true =>
          rcases hsm2 : saveMessage conv.id none ai.message .OUTBOUND env.now s4
            with ⟨m2, s5⟩
          have hrun : processBody env md s =
              (.ok (), s5, evs ++ [Event.sentReply ai.message,
                Event.savedOutbound ai.message]) := by
            unfold processBody
            simp [hfc, hgc, hsm, hca, hstop, hsend, hsm2]
          exact ⟨s3, ai, s4, evs, hca, by rw [hrun]⟩

theorem processMessage_trace_eq (env : Env) (md : MessageData) (s : Store) :
    (processMessage env md s).2.2 = (processBody env md s).2.2 := by
  unfold processMessage
  rcases hpb : processBody env md s with ⟨r, s1, evs⟩
  cases r <;> rfl

theorem processMessage_success_ok (env : Env) (md : MessageData) (s : Store)
    (hs : (processMessage env md s).1.success = true) :
    (processBody env md s).1 = .ok () := by
  unfold processMessage at hs
  rcases hpb : processBody env md s with ⟨r, s1, evs⟩
  rw [hpb] at hs
  cases r with
  | ok u => rfl
  | error e => simp at hs

theorem filterMap_actionExec (l : List ToolCall) :
    List.filterMap ((fun e => match e with | Event.actionExec n => some n | _ => none) ∘
      (fun c => Event.actionExec c.name)) l = l.map (fun c => c.name) := by
  induction l with
  | nil => rfl
  | cons c rest ih => simp [List.filterMap_cons, Function.comp, ih]

theorem countP_exec_map (p : Event → Bool) (hp : ∀ n, p (Event.actionExec n) = false)
    (l : List ToolCall) :
    List.countP p (l.map (fun c => Event.actionExec c.name)) = 0 := by
  rw [List.countP_eq_zero]
  intro e he
  rcases List.mem_map.mp he with ⟨c, _, rfl⟩
  simp [hp]

/-- C1: processMessage persists at most one outbound message in every run;
and in every run whose first LLM response carries N tool calls and which
completes successfully, the trace is exactly: the first LLM call, one action
invocation per tool call in the order the model returned them, exactly one
follow-up LLM call, the reply sent with the follow-up's text, and exactly
one persisted outbound message with that text. -/
theorem processMessage_toolcall_run :
    (∀ env md s, outboundCount (processMessage env md s).2.2 ≤ 1) ∧
    (∀ env md s m, env.llmFirst = some m → m.toolCalls ≠ [] →
      (processMessage env md s).1.success = true →
      ∃ t, env.llmFollow = some t ∧
        (processMessage env md s).2.2 =
          Event.llmCall :: (m.toolCalls.map (fun c => Event.actionExec c.name) ++
            [Event.llmCall, Event.sentReply t, Event.savedOutbound t]) ∧
        actionNames (processMessage env md s).2.2 = m.toolCalls.map (fun c => c.name) ∧
        llmCallCount (processMessage env md s).2.2 = 2 ∧
        outboundCount (processMessage env md s).2.2 = 1) := by
  constructor
  · exact processMessage_outbound_le_one
  · intro env md s m h1 h2 hs
    have hok := processMessage_success_ok env md s hs
    obtain ⟨s3, ai, s4, evs, hca, htr⟩ := processBody_ok_case env md s hok
    obtain ⟨t, hfo, hmsg, hevs⟩ := callAI_ok_events env s3 m ai s4 evs h1 h2 hca
    have htrace : (processMessage env md s).2.2 =
        Event.llmCall :: (m.toolCalls.map (fun c => Event.actionExec c.name) ++
          [Event.llmCall, Event.sentReply t, Event.savedOutbound t]) := by
      rw [processMessage_trace_eq, htr, hevs, hmsg]
      simp
    refine ⟨t, hfo, htrace, ?_, ?_, ?_⟩
    · rw [htrace]
      unfold actionNames
      simp [List.filterMap_cons, List.filterMap_append, filterMap_actionExec]
    · rw [htrace]
      unfold llmCallCount
      simp [List.countP_cons, List.countP_append,
        countP_exec_map isLlmCall (fun n => rfl), isLlmCall]
    · rw [htrace]
      unfold outboundCount
      simp [List.countP_cons, List.countP_append,
        countP_exec_map isSavedOutbound (fun n => rfl), isSavedOutbound]

def c1contact : Contact := { id := "c1", phoneNumber := "5215551234567" }

def c1tc : ToolCall :=
  { name := "addContactNotes",
    args := [("contactId", .jstr "c1"), ("notes", .jstr "quiere boda espiritual")] }

def c1env : Env :=
  { now := 5, llmFirst := some { content := "", toolCalls := [c1tc] },
    llmFollow := some "Listo" }

def c1md : MessageData :=
  { chatId := "5215551234567@c.us", content := "hola", messageId := "wamid1" }

def c1store : Store := { contacts := [c1contact] }

/-- Witness for C1: a concrete successful run with one tool call shows the
first LLM call, the one action invocation, the one follow-up LLM call, the
sent reply and the single persisted outbound message. -/
theorem processMessage_toolcall_run_witness :
    ∃ t, c1env.llmFollow = some t ∧
      (processMessage c1env c1md c1store).2.2 =
        Event.llmCall :: ([c1tc].map (fun c => Event.actionExec c.name) ++
          [Event.llmCall, Event.sentReply t, Event.savedOutbound t]) ∧
      actionNames (processMessage c1env c1md c1store).2.2 =
        [c1tc].map (fun c => c.name) ∧
      llmCallCount (processMessage c1env c1md c1store).2.2 = 2 ∧
      outboundCount (processMessage c1env c1md c1store).2.2 = 1 :=
  processMessage_toolcall_run.2 c1env c1md c1store
    { content := "", toolCalls := [c1tc] } rfl (by simp) (by rfl)

/-! ## Claim C6: failure handling in the controller -/

/-- C6: the controller handler never propagates a pipeline failure to the
host process; no run ever carries more than one apology; when the pipeline
fails and the fallback gateway calls can go through, the trace is exactly
the single pipeline run's trace plus one generic apology send — one
apology, no retry of the pipeline; and a successful run sends no apology. -/
theorem handler_failure_apology :
    (∀ env md s, (handleTextMessageAsync env md s).1 = .ok ()) ∧
    (∀ env md s, apologyCount (handleTextMessageAsync env md s).2.2 ≤ 1) ∧
    (∀ env md s, env.gwStartOk = true → (processMessage env md s).1.success = false →
      env.gwStopOk = true → env.gwSendOk = true →
      (handleTextMessageAsync env md s).2.2 =
        (processMessage env md s).2.2 ++ [Event.sentApology apologyText] ∧
      apologyCount (handleTextMessageAsync env md s).2.2 = 1) ∧
    (∀ env md s, (processMessage env md s).1.success = true → env.gwStartOk = true →
      (handleTextMessageAsync env md s).2.2 = (processMessage env md s).2.2 ∧
      apologyCount (handleTextMessageAsync env md s).2.2 = 0) := by
  refine ⟨?_, ?_, ?_, ?_⟩
  · intro env md s
    rw [handleTextMessageAsync_run]
  · intro env md s
    rw [handleTextMessageAsync_run]
    unfold apologyCount
    show List.countP _ (_ ++ _) ≤ 1
    rw [List.countP_append]
    have h1 : List.countP isSentApology
        (if env.gwStartOk then (processMessage env md s).2.2 else []) = 0 := by
      split
      · exact processMessage_no_apology env md s
      · rfl
    rw [h1]
    split
    · simp [isSentApology]
    · simp
  · intro env md s hstart hfail hstop hsend
    have hrun := handleTextMessageAsync_run env md s
    rw [hstart, hfail, hstop, hsend] at hrun
    simp only [Bool.not_true, Bool.not_false, Bool.false_or, Bool.and_true,
      if_true] at hrun
    constructor
    · rw [hrun]
    · rw [hrun]
      unfold apologyCount
      rw [List.countP_append]
      have h0 : List.countP isSentApology (processMessage env md s).2.2 = 0 :=
        processMessage_no_apology env md s
      rw [h0]
      rfl
  · intro env md s hsucc hstart
    have hrun := handleTextMessageAsync_run env md s
    rw [hstart, hsucc] at hrun
    simp only [Bool.not_true, Bool.false_or, Bool.false_and, Bool.false_eq_true,
      if_false, if_true, List.append_nil] at hrun
    constructor
    · rw [hrun]
    · rw [hrun]
      exact processMessage_no_apology env md s

def c6env : Env := { llmFirst := none }

def c6md : MessageData :=
  { chatId := "5215551234567@c.us", content := "hola", messageId := "wamid2" }

def c6store : Store := {}

/-- Witness for C6: with the LLM unreachable the pipeline fails, and the
user still receives exactly one generic apology. -/
theorem handler_failure_apology_witness :
    (handleTextMessageAsync c6env c6md c6store).2.2 =
      (processMessage c6env c6md c6store).2.2 ++ [Event.sentApology apologyText] ∧
    apologyCount (handleTextMessageAsync c6env c6md c6store).2.2 = 1 :=
  handler_failure_apology.2.2.1 c6env c6md c6store rfl (by rfl) rfl rfl

/-! ## Claim C5: safe re-invocability of the actions -/

/-- Erase the append-only notes fields, which the claim excepts by design. -/
def eraseNotes (s : Store) : Store :=
  { s with contacts := s.contacts.map (fun c => { c with notes := none }),
           bookings := s.bookings.map (fun b => { b with notes := none }) }

def c5contact : Contact := { id := "c1", phoneNumber := "5215551234567" }

def c5store : Store := { contacts := [c5contact] }

/-- Counterexample to C5 as stated: createBooking is a blind append, not an
idempotent merge — invoking it twice with the same arguments leaves two
PENDING booking rows where one invocation leaves one, a difference that
survives erasing the notes fields. -/
theorem createBooking_not_reinvocable :
    (createBooking (createBooking c5store "c1" "Boda espiritual" "2025-07-26" none).2
        "c1" "Boda espiritual" "2025-07-26" none).2.bookings.length = 2 ∧
    (createBooking c5store "c1" "Boda espiritual" "2025-07-26" none).2.bookings.length = 1 ∧
    eraseNotes (createBooking (createBooking c5store "c1" "Boda espiritual"
        "2025-07-26" none).2 "c1" "Boda espiritual" "2025-07-26" none).2 ≠
      eraseNotes (createBooking c5store "c1" "Boda espiritual" "2025-07-26" none).2 := by
  refine ⟨?_, ?_, ?_⟩ <;> decide

/-! Generic helper lemmas for the re-invocability proofs. -/

theorem countP_map_congr {α : Type} (p : α → Bool) (f : α → α) (L : List α)
    (h : ∀ x ∈ L, p (f x) = p x) :
    List.countP p (L.map f) = List.countP p L := by
  induction L with
  | nil => rfl
  | cons a L ih =>
    simp only [List.map_cons, List.countP_cons,
      h a (List.mem_cons_self a L),
      ih (fun x hx => h x (List.mem_cons_of_mem a hx))]

theorem map_update_idem {α : Type} (idOf : α → String) (key : String)
    (f : α → α) (l : List α)
    (hid : ∀ x, idOf (f x) = idOf x) (hff : ∀ x, f (f x) = f x) :
    ((l.map (fun x => if idOf x == key then f x else x)).map
      (fun x => if idOf x == key then f x else x)) =
    l.map (fun x => if idOf x == key then f x else x) := by
  rw [List.map_map]
  apply List.map_congr_left
  intro x _
  by_cases h : (idOf x == key) = true
  · have h2 : (idOf (f x) == key) = true := by rw [hid x]; exact h
    simp only [Function.comp, if_pos h, if_pos h2]
    exact hff x
  · simp only [Function.comp, if_neg h]

theorem any_map_update {α : Type} (idOf : α → String) (key : String)
    (f : α → α) (l : List α) (hid : ∀ x, idOf (f x) = idOf x) :
    ((l.map (fun x => if idOf x == key then f x else x)).any
      (fun x => idOf x == key)) = l.any (fun x => idOf x == key) := by
  induction l with
  | nil => rfl
  | cons a l ih =>
    simp only [List.map_cons, List.any_cons, ih]
    by_cases h : (idOf a == key) = true
    · simp [h, hid a]
    · simp [h]

/-- getContactBookings is a pure read. -/
theorem getContactBookings_pure (s : Store) (cid : String)
    (st : Option BookingStatus) : (getContactBookings s cid st).2 = s := by
  unfold getContactBookings
  split <;> rfl

theorem applyUpdateData_idem (u : UpdateData) (c : Contact) :
    applyUpdateData u (applyUpdateData u c) = applyUpdateData u c := by
  unfold applyUpdateData
  cases u.name <;> cases u.email <;> cases u.status <;> cases u.leadScore <;>
    cases u.source <;> cases u.notes <;> cases u.isOptedIn <;> cases u.isActive <;> rfl

/-- updateContactInfo is idempotent outright. -/
theorem updateContactInfo_idem (s : Store) (cid : String) (u : UpdateData) :
    (updateContactInfo (updateContactInfo s cid u).2 cid u).2 =
      (updateContactInfo s cid u).2 := by
  unfold updateContactInfo
  by_cases hany : (s.contacts.any fun c => c.id == cid) = true
  · rw [if_pos hany]
    have hany2 := any_map_update (fun c : Contact => c.id) cid
      (applyUpdateData u) s.contacts (fun x => rfl)
    rw [if_pos (by rw [hany2]; exact hany)]
    have := map_update_idem (fun c : Contact => c.id) cid (applyUpdateData u)
      s.contacts (fun x => rfl) (applyUpdateData_idem u)
    simp only []
    rw [this]
  · rw [if_neg hany, if_neg hany]

theorem contactUpdateStatus_err (s : Store) (cid : String) (st : ContactStatus)
    (h : (s.contacts.any fun c => c.id == cid) = false) :
    contactUpdateStatus s cid st = .error .notFound := by
  unfold contactUpdateStatus
  rw [if_neg (by simp [h])]

theorem contactUpdateStatus_ok_eq {s : Store} {cid : String} {st : ContactStatus}
    {s2 : Store} (h : contactUpdateStatus s cid st = .ok s2) :
    s2 = { s with contacts := s.contacts.map (fun c =>
      if c.id == cid then { c with status := st } else c) } := by
  unfold contactUpdateStatus at h
  split at h
  · cases h
    rfl
  · exact Except.noConfusion h

theorem contactUpdateStatus_err_any {s : Store} {cid : String} {st : ContactStatus}
    {e : Err} (h : contactUpdateStatus s cid st = .error e) :
    (s.contacts.any fun c => c.id == cid) = false := by
  by_cases hc : (s.contacts.any fun c => c.id == cid) = true
  · rw [contactUpdateStatus_run s cid st hc] at h
    exact Except.noConfusion h
  · simp only [Bool.not_eq_true] at hc
    exact hc

theorem cascadeContact_bookings (s1 : Store) (cid : String) (st : BookingStatus) :
    (cascadeContact s1 cid st).2.bookings = s1.bookings := by
  unfold cascadeContact
  split
  · split
    · next s2 heq => rw [contactUpdateStatus_ok_eq heq]
    · rfl
  · split
    · split
      · split
        · next s2 heq => rw [contactUpdateStatus_ok_eq heq]
        · rfl
      · rfl
    · rfl

/-- Erasing notes from a booking list twice-updated at the same id with the
same status collapses to the once-updated list. -/
theorem bookings_erase_second_update (l : List Booking) (bid : String)
    (st : BookingStatus) (N2 : Option String)
    (hstat : ∀ x ∈ l, (x.id == bid) = true → x.status = st) :
    (l.map (fun x => if x.id == bid then { x with status := st, notes := N2 } else x)).map
      (fun b => { b with notes := none }) =
    l.map (fun b => { b with notes := none }) := by
  rw [List.map_map]
  apply List.map_congr_left
  intro x hx
  by_cases h : (x.id == bid) = true
  · simp only [Function.comp, if_pos h]
    rw [← hstat x hx h]
  · simp only [Function.comp, if_neg h]

/-- The PENDING/CONFIRMED filter ignores a notes rewrite that re-sets an
already-set status. -/
theorem count_second_update (l : List Booking) (bid cid : String)
    (st : BookingStatus) (N2 : Option String)
    (hstat : ∀ x ∈ l, (x.id == bid) = true → x.status = st) :
    ((l.map (fun x => if x.id == bid then { x with status := st, notes := N2 } else x)).filter
      (fun b => b.contactId == cid &&
        (b.status == BookingStatus.PENDING || b.status == BookingStatus.CONFIRMED))).length =
    (l.filter (fun b => b.contactId == cid &&
        (b.status == BookingStatus.PENDING || b.status == BookingStatus.CONFIRMED))).length := by
  rw [← List.countP_eq_length_filter, ← List.countP_eq_length_filter]
  apply countP_map_congr
  intro x hx
  by_cases h : (x.id == bid) = true
  · rw [if_pos h, ← hstat x hx h]
  · rw [if_neg h]

/-- Unfolding equation for updateBookingStatus on an owned existing booking. -/
theorem updateBookingStatus_run {s : Store} {contactId bookingId : String}
    {status : BookingStatus} {notes : Option String} {b : Booking}
    (hfb : findBooking s bookingId = some b)
    (hown : (b.contactId != contactId) = false) :
    updateBookingStatus s contactId bookingId status notes =
      cascadeContact
        { s with bookings := s.bookings.map (fun x =>
            if x.id == bookingId then
              { x with status := status,
                       notes := appendBookingNotes b.notes notes }
            else x) }
        contactId status := by
  unfold updateBookingStatus
  simp only [hfb]
  rw [if_neg (by simp [hown])]

/-- find? over an id-preserving keyed map rewrite finds the rewritten row. -/
theorem find_map_update {α : Type} (idOf : α → String) (key : String) (f : α → α)
    (l : List α) (hid : ∀ x, idOf (f x) = idOf x) {b : α}
    (hf : l.find? (fun x => idOf x == key) = some b) :
    (l.map (fun x => if idOf x == key then f x else x)).find?
      (fun x => idOf x == key) = some (f b) := by
  induction l with
  | nil => exact Option.noConfusion hf
  | cons a l ih =>
    by_cases h : (idOf a == key) = true
    · rw [List.find?_cons] at hf
      simp only [h] at hf
      cases hf
      have h2 : (idOf (f b) == key) = true := by rw [hid b]; exact h
      simp only [List.map_cons, if_pos h, List.find?_cons, h2]
    · have h' : (idOf a == key) = false := by
        simp only [Bool.not_eq_true] at h
        exact h
      rw [List.find?_cons] at hf
      simp only [h'] at hf
      simp only [List.map_cons, h', Bool.false_eq_true, if_false, List.find?_cons]
      exact ih hf

theorem cascadeContact_messages (s1 : Store) (cid : String) (st : BookingStatus) :
    (cascadeContact s1 cid st).2.messages = s1.messages := by
  unfold cascadeContact
  split
  · split
    · next s2 heq => rw [contactUpdateStatus_ok_eq heq]
    · rfl
  · split
    · split
      · split
        · next s2 heq => rw [contactUpdateStatus_ok_eq heq]
        · rfl
      · rfl
    · rfl

theorem cascadeContact_nextId (s1 : Store) (cid : String) (st : BookingStatus) :
    (cascadeContact s1 cid st).2.nextId = s1.nextId := by
  unfold cascadeContact
  split
  · split
    · next s2 heq => rw [contactUpdateStatus_ok_eq heq]
    · rfl
  · split
    · split
      · split
        · next s2 heq => rw [contactUpdateStatus_ok_eq heq]
        · rfl
      · rfl
    · rfl

/-- Full characterization of the contact rows after the cascade. -/
theorem cascadeContact_contacts (s : Store) (cid : String) (st : BookingStatus) :
    (cascadeContact s cid st).2.contacts =
      if ((st == BookingStatus.COMPLETED ||
           ((st == BookingStatus.CANCELLED || st == BookingStatus.NO_SHOW) &&
            activeBookingCount s cid == 0)) &&
          s.contacts.any (fun c => c.id == cid)) = true then
        s.contacts.map (fun c => if c.id == cid then
          { c with status := (if (st == BookingStatus.COMPLETED) = true
                              then ContactStatus.CUSTOMER else ContactStatus.LEAD) }
          else c)
      else s.contacts := by
  by_cases hc : (st == BookingStatus.COMPLETED) = true
  · by_cases hany : (s.contacts.any fun c => c.id == cid) = true
    · simp only [cascadeContact, hc, eq_self_iff_true, if_true, Bool.true_or,
        Bool.true_and, hany, contactUpdateStatus_run s cid ContactStatus.CUSTOMER hany]
    · have hany' : (s.contacts.any fun c => c.id == cid) = false := by
        simp only [Bool.not_eq_true] at hany
        exact hany
      simp only [cascadeContact, hc, eq_self_iff_true, if_true, Bool.true_or,
        Bool.true_and, hany', Bool.false_eq_true, if_false,
        contactUpdateStatus_err s cid ContactStatus.CUSTOMER hany']
  · have hc' : (st == BookingStatus.COMPLETED) = false := by
      simp only [Bool.not_eq_true] at hc
      exact hc
    by_cases hcn : (st == BookingStatus.CANCELLED || st == BookingStatus.NO_SHOW) = true
    · by_cases hz : (activeBookingCount s cid == 0) = true
      · by_cases hany : (s.contacts.any fun c => c.id == cid) = true
        · simp only [cascadeContact, hc', Bool.false_eq_true, if_false, hcn,
            eq_self_iff_true, if_true, Bool.false_or, Bool.true_and, hz, hany,
            contactUpdateStatus_run s cid ContactStatus.LEAD hany]
        · have hany' : (s.contacts.any fun c => c.id == cid) = false := by
            simp only [Bool.not_eq_true] at hany
            exact hany
          simp only [cascadeContact, hc', Bool.false_eq_true, if_false, hcn,
            eq_self_iff_true, if_true, Bool.false_or, Bool.true_and, hz, hany',
            Bool.and_false, contactUpdateStatus_err s cid ContactStatus.LEAD hany']
      · have hz' : (activeBookingCount s cid == 0) = false := by
          simp only [Bool.not_eq_true] at hz
          exact hz
        simp only [cascadeContact, hc', Bool.false_eq_true, if_false, hcn,
          eq_self_iff_true, if_true, Bool.false_or, Bool.true_and, hz',
          Bool.false_and]
    · have hcn' : (st == BookingStatus.CANCELLED || st == BookingStatus.NO_SHOW) = false := by
        simp only [Bool.not_eq_true] at hcn
        exact hcn
      simp only [cascadeContact, hc', Bool.false_eq_true, if_false, hcn',
        Bool.false_or, Bool.false_and]

/-- eraseNotes respects stores that agree outside the notes fields. -/
theorem eraseNotes_ext {s t : Store}
    (hcon : s.contacts.map (fun c => { c with notes := none }) =
            t.contacts.map (fun c => { c with notes := none }))
    (hb : s.bookings.map (fun b => { b with notes := none }) =
          t.bookings.map (fun b => { b with notes := none }))
    (hv : s.conversations = t.conversations)
    (hm : s.messages = t.messages) (hn : s.nextId = t.nextId) :
    eraseNotes s = eraseNotes t := by
  unfold eraseNotes
  rw [hcon, hb, hv, hm, hn]

/-- Re-running the cascade after a same-status notes rewrite of the booking
changes nothing beyond notes. -/
theorem cascadeContact_twice_erase (s1 : Store) (cid bid : String)
    (st : BookingStatus) (N2 : Option String) (T S2 : Store)
    (hT : T = (cascadeContact s1 cid st).2)
    (hS2 : S2 = { T with bookings := (T.bookings.map
        (fun x => if x.id == bid then { x with status := st, notes := N2 } else x)) })
    (hstat : ∀ x ∈ s1.bookings, (x.id == bid) = true → x.status = st) :
    eraseNotes (cascadeContact S2 cid st).2 = eraseNotes T := by
  have hTb : T.bookings = s1.bookings := by
    rw [hT]
    exact cascadeContact_bookings s1 cid st
  have hTc : T.contacts =
      (if ((st == BookingStatus.COMPLETED ||
            ((st == BookingStatus.CANCELLED || st == BookingStatus.NO_SHOW) &&
             activeBookingCount s1 cid == 0)) &&
           s1.contacts.any (fun c => c.id == cid)) = true then
        s1.contacts.map (fun c => if c.id == cid then
          { c with status := (if (st == BookingStatus.COMPLETED) = true
                              then ContactStatus.CUSTOMER else ContactStatus.LEAD) }
          else c)
      else s1.contacts) := by
    rw [hT]
    exact cascadeContact_contacts s1 cid st
  have hS2c : S2.contacts = T.contacts := by
    rw [hS2]
  have hS2b : S2.bookings = s1.bookings.map
      (fun x => if x.id == bid then { x with status := st, notes := N2 } else x) := by
    simp only [hS2]
    rw [hTb]
  have hcount2 : activeBookingCount S2 cid = activeBookingCount s1 cid := by
    unfold activeBookingCount
    rw [hS2b]
    exact count_second_update s1.bookings bid cid st N2 hstat
  have hany2 : (S2.contacts.any fun c => c.id == cid) =
      (s1.contacts.any fun c => c.id == cid) := by
    rw [hS2c, hTc]
    by_cases hcond : ((st == BookingStatus.COMPLETED ||
        ((st == BookingStatus.CANCELLED || st == BookingStatus.NO_SHOW) &&
         activeBookingCount s1 cid == 0)) &&
        s1.contacts.any (fun c => c.id == cid)) = true
    · rw [if_pos hcond]
      exact any_map_update (fun c : Contact => c.id) cid
        (fun c => { c with status := (if (st == BookingStatus.COMPLETED) = true
                    then ContactStatus.CUSTOMER else ContactStatus.LEAD) })
        s1.contacts (fun x => rfl)
    · rw [if_neg hcond]
  apply eraseNotes_ext
  · have hc2 : (cascadeContact S2 cid st).2.contacts = T.contacts := by
      rw [cascadeContact_contacts S2 cid st, hcount2, hany2, hS2c, hTc]
      by_cases hcond : ((st == BookingStatus.COMPLETED ||
          ((st == BookingStatus.CANCELLED || st == BookingStatus.NO_SHOW) &&
           activeBookingCount s1 cid == 0)) &&
          s1.contacts.any (fun c => c.id == cid)) = true
      · rw [if_pos hcond, if_pos hcond]
        exact map_update_idem (fun c : Contact => c.id) cid
          (fun c => { c with status := (if (st == BookingStatus.COMPLETED) = true
                      then ContactStatus.CUSTOMER else ContactStatus.LEAD) })
          s1.contacts (fun x => rfl) (fun x => rfl)
      · rw [if_neg hcond, if_neg hcond]
    rw [hc2]
  · rw [cascadeContact_bookings S2 cid st, hS2b, hTb]
    exact bookings_erase_second_update s1.bookings bid st N2 hstat
  · rw [cascadeContact_conversations S2 cid st, hS2]
  · rw [cascadeContact_messages S2 cid st, hS2]
  · rw [cascadeContact_nextId S2 cid st, hS2]

/-- After the keyed status rewrite every matching booking carries the new
status. -/
theorem status_after_update (l : List Booking) (bid : String) (st : BookingStatus)
    (N : Option String) :
    ∀ x ∈ l.map (fun x => if x.id == bid then { x with status := st, notes := N } else x),
      (x.id == bid) = true → x.status = st := by
  intro x hx hxid
  rcases List.mem_map.mp hx with ⟨y, hy, rfl⟩
  by_cases h : (y.id == bid) = true
  · simp only [if_pos h]
  · simp only [if_neg h]
    simp only [if_neg h] at hxid
    exact absurd hxid h

/-- updateBookingStatus re-invoked with the same arguments changes nothing
beyond notes. -/
theorem updateBookingStatus_reinvocable (s : Store) (cid bid : String)
    (st : BookingStatus) (notes : Option String) :
    eraseNotes (updateBookingStatus
        (updateBookingStatus s cid bid st notes).2 cid bid st notes).2 =
      eraseNotes (updateBookingStatus s cid bid st notes).2 := by
  cases hfb : findBooking s bid with
  | none =>
    have e2 : (updateBookingStatus s cid bid st notes).2 = s := by
      unfold updateBookingStatus
      simp only [hfb]
    rw [e2, e2]
  | some b =>
    by_cases hown : (b.contactId != cid) = true
    · have e2 : (updateBookingStatus s cid bid st notes).2 = s := by
        unfold updateBookingStatus
        simp only [hfb]
        rw [if_pos hown]
      rw [e2, e2]
    · have hown' : (b.contactId != cid) = false := by
        simp only [Bool.not_eq_true] at hown
        exact hown
      have e1 := @updateBookingStatus_run s cid bid st notes b hfb hown'
      rw [e1]
      have hTb : (cascadeContact { s with bookings := (s.bookings.map (fun x =>
          if x.id == bid then { x with status := st, notes := appendBookingNotes b.notes notes } else x)) } cid st).2.bookings =
          s.bookings.map (fun x =>
            if x.id == bid then { x with status := st, notes := appendBookingNotes b.notes notes } else x) :=
        cascadeContact_bookings _ cid st
      have hfb2 : findBooking (cascadeContact { s with bookings := (s.bookings.map (fun x =>
          if x.id == bid then { x with status := st, notes := appendBookingNotes b.notes notes } else x)) } cid st).2 bid =
          some { b with status := st, notes := appendBookingNotes b.notes notes } := by
        unfold findBooking
        rw [hTb]
        exact find_map_update (fun x : Booking => x.id) bid
          (fun x => { x with status := st, notes := appendBookingNotes b.notes notes })
          s.bookings (fun x => rfl) hfb
      have hown2 : (({ b with status := st, notes := appendBookingNotes b.notes notes } : Booking).contactId != cid) = false :=
        hown'
      have e2 := @updateBookingStatus_run _ cid bid st notes _ hfb2 hown2
      rw [e2]
      exact cascadeContact_twice_erase _ cid bid st _ _ _ rfl rfl
        (status_after_update s.bookings bid st _)

theorem if_absorb {α : Type} (b : Bool) (x y : α) :
    (if b then x else (if b then x else y)) = (if b then x else y) := by
  cases b <;> rfl

theorem newCF_idem (ii : Option (List String)) (cf : Option CustomFields) :
    newCF ii (newCF ii cf) = newCF ii cf := by
  cases ii with
  | none => rfl
  | some l =>
    cases hl : l.isEmpty with
    | true => simp only [newCF, hl, eq_self_iff_true, if_true]
    | false =>
      simp only [newCF, hl, Bool.false_eq_true, if_false, Option.getD_some]

theorem insertDescBy_map {α : Type} (key : α → Nat) (f : α → α) (x : α)
    (l : List α) (hkey : ∀ y, key (f y) = key y) :
    insertDescBy key (f x) (l.map f) = (insertDescBy key x l).map f := by
  induction l with
  | nil => rfl
  | cons a l ih =>
    simp only [List.map_cons, insertDescBy, hkey]
    by_cases h : key a ≤ key x
    · rw [if_pos h, if_pos h]
      simp only [List.map_cons]
    · rw [if_neg h, if_neg h]
      simp only [List.map_cons, ih]

theorem sortDescBy_map {α : Type} (key : α → Nat) (f : α → α) (l : List α)
    (hkey : ∀ y, key (f y) = key y) :
    sortDescBy key (l.map f) = (sortDescBy key l).map f := by
  induction l with
  | nil => rfl
  | cons a l ih =>
    simp only [List.map_cons, sortDescBy, ih]
    exact insertDescBy_map key f a (sortDescBy key l) hkey

theorem filter_map_pred {α : Type} (p : α → Bool) (f : α → α) (l : List α)
    (hp : ∀ x, p (f x) = p x) :
    (l.map f).filter p = (l.filter p).map f := by
  induction l with
  | nil => rfl
  | cons a l ih =>
    cases h : p a with
    | true =>
      simp only [List.map_cons, List.filter_cons, hp, h, eq_self_iff_true,
        if_true, List.map_cons, ih]
    | false =>
      simp only [List.map_cons, List.filter_cons, hp, h, Bool.false_eq_true,
        if_false, ih]

/-- findActiveConversation commutes with a conversation rewrite that keeps
contactId, isActive and startedAt. -/
theorem findActive_map (l : List Conversation) (cid : String)
    (f : Conversation → Conversation)
    (hpc : ∀ v, (f v).contactId = v.contactId)
    (hpa : ∀ v, (f v).isActive = v.isActive)
    (hk : ∀ v, (f v).startedAt = v.startedAt) :
    (sortDescBy (fun v => v.startedAt) ((l.map f).filter
      (fun v => v.contactId == cid && v.isActive))).head? =
    ((sortDescBy (fun v => v.startedAt) (l.filter
      (fun v => v.contactId == cid && v.isActive))).head?).map f := by
  rw [filter_map_pred _ f l (fun x => by rw [hpc, hpa])]
  rw [sortDescBy_map _ f _ (fun y => hk y)]
  rw [List.head?_map]

theorem eraseContacts_map_notes (l : List Contact) (cid : String)
    (N : Option String) :
    ((l.map (fun c => if c.id == cid then { c with notes := N } else c)).map
      (fun c => { c with notes := none })) =
    l.map (fun c => { c with notes := none }) := by
  rw [List.map_map]
  apply List.map_congr_left
  intro x _
  by_cases h : (x.id == cid) = true
  · simp only [Function.comp, if_pos h]
  · simp only [Function.comp, if_neg h]

/-- addContactNotes only touches the notes field of the contact. -/
theorem addContactNotes_notes_only (s : Store) (now : Nat) (cid n : String) :
    eraseNotes (addContactNotes s now cid n).2 = eraseNotes s := by
  cases hfc : findContact s cid with
  | none =>
    have e : (addContactNotes s now cid n).2 = s := by
      unfold addContactNotes
      simp only [hfc]
    rw [e]
  | some c =>
    have e : (addContactNotes s now cid n).2 =
        { s with contacts := s.contacts.map (fun x =>
            if x.id == cid then
              { x with notes := some (match c.notes with
                  | some old => if old.isEmpty then toString now ++ ": " ++ n
                                else old ++ "\n\n" ++ (toString now ++ ": " ++ n)
                  | none => toString now ++ ": " ++ n) }
            else x) } := by
      unfold addContactNotes
      simp only [hfc]
    rw [e]
    apply eraseNotes_ext
    · exact eraseContacts_map_notes s.contacts cid _
    · rfl
    · rfl
    · rfl
    · rfl

/-- analyzeCustomerIntent is idempotent outright: a second identical call
leaves the store exactly as after the first. -/
theorem analyzeCustomerIntent_idem (s : Store) (contactId intent : String)
    (contactStatus : ContactStatus) (leadScore : Int)
    (interestedIn : Option (List String)) (needsHumanAgent : Bool)
    (extractedInfo : ExtractedInfo) :
    (analyzeCustomerIntent (analyzeCustomerIntent s contactId intent contactStatus
        leadScore interestedIn needsHumanAgent extractedInfo).2
      contactId intent contactStatus leadScore interestedIn needsHumanAgent
      extractedInfo).2 =
    (analyzeCustomerIntent s contactId intent contactStatus leadScore
      interestedIn needsHumanAgent extractedInfo).2 := by
  cases hfc : findContact s contactId with
  | none =>
    have e : (analyzeCustomerIntent s contactId intent contactStatus leadScore
        interestedIn needsHumanAgent extractedInfo).2 = s := by
      unfold analyzeCustomerIntent
      simp only [hfc]
    rw [e, e]
  | some contact =>
    cases hfa : findActiveConversation s contactId with
    | none =>
      have e : (analyzeCustomerIntent s contactId intent contactStatus leadScore
          interestedIn needsHumanAgent extractedInfo).2 = s := by
        unfold analyzeCustomerIntent
        simp only [hfc, hfa]
      rw [e, e]
    | some conversation =>
      have e1 : (analyzeCustomerIntent s contactId intent contactStatus leadScore
          interestedIn needsHumanAgent extractedInfo).2 =
          { s with
            contacts := (s.contacts.map (fun c =>
              if c.id == contactId then
                { c with status := contactStatus, leadScore := some leadScore,
                         name := if strTruthy extractedInfo.name then extractedInfo.name
                                 else contact.name,
                         email := if strTruthy extractedInfo.email then extractedInfo.email
                                  else contact.email,
                         customFields := newCF interestedIn contact.customFields }
              else c)),
            conversations := (s.conversations.map (fun v =>
              if v.id == conversation.id then
                { v with intent := some intent,
                         context := some { lastAnalyzedIntent := some intent,
                                           needsHumanAgent := some needsHumanAgent,
                                           extractedInfo := some extractedInfo,
                                           rest := (conversation.context.getD {}).rest } }
              else v)) } := by
        unfold analyzeCustomerIntent
        simp only [hfc, hfa]
      have hfc2 : findContact
          { s with
            contacts := (s.contacts.map (fun c =>
              if c.id == contactId then
                { c with status := contactStatus, leadScore := some leadScore,
                         name := if strTruthy extractedInfo.name then extractedInfo.name
                                 else contact.name,
                         email := if strTruthy extractedInfo.email then extractedInfo.email
                                  else contact.email,
                         customFields := newCF interestedIn contact.customFields }
              else c)),
            conversations := (s.conversations.map (fun v =>
              if v.id == conversation.id then
                { v with intent := some intent,
                         context := some { lastAnalyzedIntent := some intent,
                                           needsHumanAgent := some needsHumanAgent,
                                           extractedInfo := some extractedInfo,
                                           rest := (conversation.context.getD {}).rest } }
              else v)) } contactId =
          some ({ contact with
                  status := contactStatus,
                  leadScore := some leadScore,
                  name := if strTruthy extractedInfo.name then extractedInfo.name
                          else contact.name,
                  email := if strTruthy extractedInfo.email then extractedInfo.email
                           else contact.email,
                  customFields := newCF interestedIn contact.customFields }) := by
        have hcl : s.contacts.find? (fun c => c.id == contactId) = some contact := hfc
        show (s.contacts.map (fun c =>
            if c.id == contactId then
              { c with status := contactStatus, leadScore := some leadScore,
                       name := if strTruthy extractedInfo.name then extractedInfo.name
                               else contact.name,
                       email := if strTruthy extractedInfo.email then extractedInfo.email
                                else contact.email,
                       customFields := newCF interestedIn contact.customFields }
            else c)).find? (fun c => c.id == contactId) = _
        rw [find_contact_map_update s.contacts contactId _ (by intro x; rfl), hcl]
        rfl
      have hfa2 : findActiveConversation
          { s with
            contacts := (s.contacts.map (fun c =>
              if c.id == contactId then
                { c with status := contactStatus, leadScore := some leadScore,
                         name := if strTruthy extractedInfo.name then extractedInfo.name
                                 else contact.name,
                         email := if strTruthy extractedInfo.email then extractedInfo.email
                                  else contact.email,
                         customFields := newCF interestedIn contact.customFields }
              else c)),
            conversations := (s.conversations.map (fun v =>
              if v.id == conversation.id then
                { v with intent := some intent,
                         context := some { lastAnalyzedIntent := some intent,
                                           needsHumanAgent := some needsHumanAgent,
                                           extractedInfo := some extractedInfo,
                                           rest := (conversation.context.getD {}).rest } }
              else v)) } contactId =
          some ({ conversation with
                  intent := some intent,
                  context := some { lastAnalyzedIntent := some intent,
                                    needsHumanAgent := some needsHumanAgent,
                                    extractedInfo := some extractedInfo,
                                    rest := (conversation.context.getD {}).rest } }) := by
        have h := findActive_map s.conversations contactId
          (fun v =>
            if v.id == conversation.id then
              { v with intent := some intent,
                       context := some { lastAnalyzedIntent := some intent,
                                         needsHumanAgent := some needsHumanAgent,
                                         extractedInfo := some extractedInfo,
                                         rest := (conversation.context.getD {}).rest } }
            else v)
          (fun v => by
            by_cases hv : (v.id == conversation.id) = true
            · simp only [if_pos hv]
            · simp only [if_neg hv])
          (fun v => by
            by_cases hv : (v.id == conversation.id) = true
            · simp only [if_pos hv]
            · simp only [if_neg hv])
          (fun v => by
            by_cases hv : (v.id == conversation.id) = true
            · simp only [if_pos hv]
            · simp only [if_neg hv])
        have hfa' : (sortDescBy (fun v => v.startedAt) (s.conversations.filter
            (fun v => v.contactId == contactId && v.isActive))).head? =
            some conversation := hfa
        rw [hfa'] at h
        simp only [Option.map_some', beq_self_eq_true, if_true] at h
        exact h
      rw [e1]
      unfold analyzeCustomerIntent
      simp only [hfc2, hfa2, Option.getD_some, if_absorb, newCF_idem]
      simp only [Store.mk.injEq]
      refine ⟨?_, ?_, trivial, trivial, trivial⟩
      · exact map_update_idem (fun c : Contact => c.id) contactId _ s.contacts
          (fun x => rfl) (fun x => rfl)
      · exact map_update_idem (fun v : Conversation => v.id) conversation.id _
          s.conversations (fun x => rfl) (fun x => rfl)

/-- A successful createBooking appends exactly one booking row and keeps the
contact row present. -/
theorem createBooking_run_len (s : Store) (cid svc dt : String) (n : Option String)
    (hc : findContact s cid ≠ none) (hd : parseDate dt ≠ none) :
    (createBooking s cid svc dt n).2.bookings.length = s.bookings.length + 1 ∧
    findContact (createBooking s cid svc dt n).2 cid ≠ none := by
  cases hfc : findContact s cid with
  | none => exact absurd hfc hc
  | some c =>
    cases hpd : parseDate dt with
    | none => exact absurd hpd hd
    | some d =>
      have e : (createBooking s cid svc dt n).2 =
          { s with
            nextId := s.nextId + 1,
            bookings := (s.bookings ++
              [{ id := "rec" ++ toString s.nextId, contactId := cid, serviceName := svc,
                 dateTime := d, status := .PENDING, notes := some (n.getD "") }]),
            contacts := (s.contacts.map (fun x =>
              if x.id == cid then { x with status := .OPPORTUNITY } else x)) } := by
        unfold createBooking genId
        simp only [hfc, hpd]
      rw [e]
      constructor
      · show (s.bookings ++ [_]).length = s.bookings.length + 1
        rw [List.length_append]
        rfl
      · show (s.contacts.map (fun x =>
            if x.id == cid then { x with status := ContactStatus.OPPORTUNITY } else x)).find?
            (fun x => x.id == cid) ≠ none
        rw [find_contact_map_update s.contacts cid _ (by intro x; rfl)]
        have hcl : s.contacts.find? (fun x => x.id == cid) = some c := hfc
        rw [hcl]
        simp only [Option.map_some']
        exact Option.some_ne_none _

/-- C5 corrected: of the six registry actions all but createBooking are
safely re-invocable — invoking the action twice with the same arguments
leaves the store, up to the append-only notes fields, exactly as one
invocation does — while createBooking is a blind append, not an idempotent
merge: each successful invocation inserts one more PENDING booking row, so
a repeated call leaves two rows where one invocation leaves one. -/
theorem actions_reinvocable_mod_notes :
    (∀ (s : Store) (contactId intent : String) (cs : ContactStatus) (ls : Int)
        (ii : Option (List String)) (nha : Bool) (ei : ExtractedInfo),
      eraseNotes (analyzeCustomerIntent (analyzeCustomerIntent s contactId intent cs
          ls ii nha ei).2 contactId intent cs ls ii nha ei).2 =
        eraseNotes (analyzeCustomerIntent s contactId intent cs ls ii nha ei).2) ∧
    (∀ (s : Store) (cid bid : String) (st : BookingStatus) (n : Option String),
      eraseNotes (updateBookingStatus (updateBookingStatus s cid bid st n).2
          cid bid st n).2 =
        eraseNotes (updateBookingStatus s cid bid st n).2) ∧
    (∀ (s : Store) (cid : String) (u : UpdateData),
      eraseNotes (updateContactInfo (updateContactInfo s cid u).2 cid u).2 =
        eraseNotes (updateContactInfo s cid u).2) ∧
    (∀ (s : Store) (cid : String) (st : Option BookingStatus),
      eraseNotes (getContactBookings (getContactBookings s cid st).2 cid st).2 =
        eraseNotes (getContactBookings s cid st).2) ∧
    (∀ (s : Store) (now : Nat) (cid n : String),
      eraseNotes (addContactNotes (addContactNotes s now cid n).2 now cid n).2 =
        eraseNotes (addContactNotes s now cid n).2) ∧
    (∀ (s : Store) (cid svc dt : String) (n : Option String),
      findContact s cid ≠ none → parseDate dt ≠ none →
      (createBooking s cid svc dt n).2.bookings.length = s.bookings.length + 1 ∧
      (createBooking (createBooking s cid svc dt n).2 cid svc dt n).2.bookings.length =
        s.bookings.length + 2) := by
  refine ⟨?_, ?_, ?_, ?_, ?_, ?_⟩
  · intro s contactId intent cs ls ii nha ei
    rw [analyzeCustomerIntent_idem]
  · intro s cid bid st n
    exact updateBookingStatus_reinvocable s cid bid st n
  · intro s cid u
    rw [updateContactInfo_idem]
  · intro s cid st
    rw [getContactBookings_pure ((getContactBookings s cid st).2) cid st]
  · intro s now cid n
    exact addContactNotes_notes_only ((addContactNotes s now cid n).2) now cid n
  · intro s cid svc dt n hc hd
    have h1 := createBooking_run_len s cid svc dt n hc hd
    have h2 := createBooking_run_len ((createBooking s cid svc dt n).2) cid svc dt n h1.2 hd
    refine ⟨h1.1, ?_⟩
    rw [h2.1, h1.1]

/-- Witness for C5 corrected at the concrete one-contact store: one
createBooking call adds one row, the repeated call two rows, and a repeated
addContactNotes call only re-touches notes. -/
theorem actions_reinvocable_mod_notes_witness :
    findContact c5store "c1" ≠ none ∧ parseDate "2025-07-26" ≠ none ∧
    (createBooking c5store "c1" "Boda espiritual" "2025-07-26" none).2.bookings.length =
      c5store.bookings.length + 1 ∧
    (createBooking (createBooking c5store "c1" "Boda espiritual" "2025-07-26" none).2
        "c1" "Boda espiritual" "2025-07-26" none).2.bookings.length =
      c5store.bookings.length + 2 ∧
    eraseNotes (addContactNotes (addContactNotes c5store 0 "c1" "hola").2 0 "c1" "hola").2 =
      eraseNotes (addContactNotes c5store 0 "c1" "hola").2 :=
  ⟨by decide, by decide,
   (actions_reinvocable_mod_notes.2.2.2.2.2 c5store "c1" "Boda espiritual" "2025-07-26" none
      (by decide) (by decide)).1,
   (actions_reinvocable_mod_notes.2.2.2.2.2 c5store "c1" "Boda espiritual" "2025-07-26" none
      (by decide) (by decide)).2,
   actions_reinvocable_mod_notes.2.2.2.2.1 c5store 0 "c1" "hola"⟩

end SerBot
